import Mathlib

/-!
Verification of the Glass-Box compiler front end (`src/lexer_engine.py`,
`src/parser_engine.py`) against its natural-language specification.

The Python source is shallowly embedded: each class becomes a structure,
each method a function, and the mutable `self` becomes explicitly threaded
state.  Python exceptions are modelled with `Except`, where the error value
carries the state at the moment of the raise (a raised Python exception does
not roll the object back).  Loops are modelled by fuel-indexed structural
recursion; every call site passes fuel larger than the number of iterations
the loop can make (each iteration consumes at least one input character or
token), so the fuel-exhausted branch is never reached on the inputs of any
theorem below.

Python's character classification methods are modelled on ASCII (`isalpha`,
`isdigit`, `isalnum`, `isspace`); all inputs considered here are ASCII.

Python's heap is made explicit only where object identity matters: the
symbol-table entries created by `Lexer._read_identifier` are allocated in an
explicit `heap : List SymEntry`, and the live symbol table and each trace
snapshot store heap addresses, mirroring the fact that Python's
`dict.copy()` in `Lexer.log_step` is a shallow copy of references.  Each
trace step additionally records `rendered`, the by-value view of the table
computed at the moment of the append; comparing it later with the snapshot
rendered through the final heap expresses "later mutation does not
retroactively alter earlier trace entries".
-/

namespace GlassBox

/-- ASCII model of Python `str.isalpha` (code points of `a`-`z`, `A`-`Z`). -/
def pyAlpha (c : Char) : Bool :=
  (97 ≤ c.toNat && c.toNat ≤ 122) || (65 ≤ c.toNat && c.toNat ≤ 90)

/-- ASCII model of Python `str.isdigit` (code points of `0`-`9`). -/
def pyDigit (c : Char) : Bool :=
  48 ≤ c.toNat && c.toNat ≤ 57

/-- ASCII model of Python `str.isalnum`. -/
def pyAlnum (c : Char) : Bool :=
  pyAlpha c || pyDigit c

/-- ASCII model of Python `str.isspace` (space, tab, newline, carriage
return, vertical tab, form feed). -/
def pySpace (c : Char) : Bool :=
  c.toNat = 32 || c.toNat = 9 || c.toNat = 10 || c.toNat = 13 ||
    c.toNat = 11 || c.toNat = 12

/-- `lexer_engine.Token`. -/
structure Token where
  type : String
  value : String
  line : Nat
  column : Nat
deriving Repr, DecidableEq

/-- `Token.__str__`. -/
def tokenStr (t : Token) : String :=
  "<" ++ t.type ++ ", '" ++ t.value ++ "', line " ++ toString t.line ++ ">"

/-- `lexer_engine.LexicalError` (message, line, column). -/
structure LexicalError where
  message : String
  line : Nat
  column : Nat
deriving Repr, DecidableEq

/-- `lexer_engine.CharStream`.  The source keeps the whole text plus an
integer cursor; here `rest` is the not-yet-consumed suffix of the text and
`pos` the count of consumed characters, which is the same cursor. -/
structure CharStream where
  rest : List Char
  pos : Nat
  line : Nat
  column : Nat
deriving Repr, DecidableEq

/-- `CharStream.get_char`. -/
def CharStream.getChar (s : CharStream) : Option Char × CharStream :=
  match s.rest with
  | [] => (none, s)
  | c :: r =>
    if c = '\n' then
      (some c, { s with rest := r, pos := s.pos + 1, line := s.line + 1, column := 1 })
    else
      (some c, { s with rest := r, pos := s.pos + 1, column := s.column + 1 })

/-- `CharStream.peek_char`. -/
def CharStream.peekChar (s : CharStream) : Option Char :=
  s.rest.head?

/-- `CharStream.get_position`. -/
def CharStream.getPosition (s : CharStream) : Nat × Nat :=
  (s.line, s.column)

/-- One symbol-table entry object: the dict
`{'type': 'variable', 'line': line}` allocated in `Lexer._read_identifier`. -/
structure SymEntry where
  type : String
  line : Nat
deriving Repr, DecidableEq

/-- One entry of `Lexer.steps`.  `snapshot` is the shallow copy
`self.symbol_table.copy()` (a map from name to heap address); `rendered` is
the by-value view of that table at the moment the step was appended. -/
structure LexStep where
  action : String
  message : String
  line : Nat
  column : Nat
  current_state : String
  current_lexeme : String
  snapshot : List (String × Nat)
  rendered : List (String × Option SymEntry)
  char : Option Char
  token_generated : Option String
deriving Repr, DecidableEq

/-- The mutable fields of `lexer_engine.Lexer`, plus the explicit heap of
symbol-table entry objects. -/
structure LexSt where
  stream : CharStream
  tokens : List Token
  steps : List LexStep
  heap : List SymEntry
  symbol_table : List (String × Nat)
  current_lexeme : String
  current_state : String
  last_token : Option Token
deriving Repr, DecidableEq

/-- `Lexer.keywords`. -/
def keywords : List String :=
  ["int", "float", "char", "double", "if", "else", "while", "for", "return"]

/-- `Lexer.operators` (a set containing both single- and two-character
operator strings; a single character only ever matches the one-character
members). -/
def operators : List String :=
  ["+", "-", "*", "/", "=", "==", "!=", "<", ">", "<=", ">="]

/-- `Lexer.delimiters`. -/
def delimiters : List String :=
  [";", ",", "(", ")", "\x7b", "\x7d"]

/-- The two-character operator set checked in `Lexer._read_operator`. -/
def multiOps : List String :=
  ["==", "!=", "<=", ">="]

/-- Dereference every address of a stored table through a heap: the by-value
view of a (possibly snapshot) symbol table. -/
def render (heap : List SymEntry) (table : List (String × Nat)) :
    List (String × Option SymEntry) :=
  table.map fun p => (p.1, heap[p.2]?)

/-- Python `dict` assignment `d[k] = v`: replace the value at an existing
key, keeping insertion order, else append. -/
def dictSet : List (String × Nat) → String → Nat → List (String × Nat)
  | [], k, v => [(k, v)]
  | (k', v') :: t, k, v =>
    if k' = k then (k, v) :: t else (k', v') :: dictSet t k v

/-- `Lexer.log_step`.  The source's `lexeme` keyword argument is accepted
but never read by the body (the step stores `self.current_lexeme`), so it is
not a parameter here. -/
def logStep (st : LexSt) (message : String) (action : String) (char : Option Char) : LexSt :=
  let p := st.stream.getPosition
  let step : LexStep :=
    { action := action
      message := message
      line := p.1
      column := p.2
      current_state := st.current_state
      current_lexeme := st.current_lexeme
      snapshot := st.symbol_table
      rendered := render st.heap st.symbol_table
      char := char
      token_generated :=
        if action = "TOKEN_GENERATED" then st.last_token.map tokenStr else none }
  { st with steps := st.steps ++ [step] }

/-- The `while` loop of `Lexer._read_identifier`. -/
def identLoop : Nat → LexSt → LexSt
  | 0, st => st
  | fuel + 1, st =>
    match st.stream.peekChar with
    | none => st
    | some c =>
      if pyAlnum c || c = '_' then
        let g := st.stream.getChar
        let st := { st with stream := g.2, current_lexeme := st.current_lexeme.push c }
        let st := logStep st ("Building identifier: '" ++ st.current_lexeme ++ "'")
          "TOKEN_GENERATED" none
        identLoop fuel st
      else st

/-- `Lexer._read_identifier`. -/
def readIdentifier (st : LexSt) (firstChar : Char) : Token × LexSt :=
  let st := { st with current_lexeme := String.mk [firstChar], current_state := "IDENTIFIER" }
  let st := identLoop (st.stream.rest.length + 1) st
  let p := st.stream.getPosition
  let res :
      String × LexSt :=
    if keywords.contains st.current_lexeme then
      let st := { st with current_state := "KEYWORD" }
      let st := logStep st ("Found keyword: " ++ st.current_lexeme) "TOKEN_GENERATED" none
      ("KEYWORD", st)
    else
      let addr := st.heap.length
      let st := { st with
        heap := st.heap ++ [{ type := "variable", line := p.1 }],
        symbol_table := dictSet st.symbol_table st.current_lexeme addr }
      let st := logStep st ("Found identifier: " ++ st.current_lexeme) "TOKEN_GENERATED" none
      ("IDENTIFIER", st)
  let st := res.2
  let token : Token := { type := res.1, value := st.current_lexeme, line := p.1, column := p.2 }
  let st := logStep st ("Token generated: " ++ tokenStr token) "TOKEN_GENERATED" none
  (token, st)

/-- The `while` loop of `Lexer._read_number`; the boolean is `has_decimal`. -/
def numberLoop : Nat → Bool → LexSt → LexSt × Bool
  | 0, hasDec, st => (st, hasDec)
  | fuel + 1, hasDec, st =>
    match st.stream.peekChar with
    | none => (st, hasDec)
    | some c =>
      if pyDigit c || (c = '.' && !hasDec) then
        let hasDec' := if c = '.' then true else hasDec
        let st := if c = '.' then { st with current_state := "FLOAT" } else st
        let g := st.stream.getChar
        let st := { st with stream := g.2, current_lexeme := st.current_lexeme.push c }
        let st := logStep st ("Building number: '" ++ st.current_lexeme ++ "'")
          "TOKEN_GENERATED" none
        numberLoop fuel hasDec' st
      else (st, hasDec)

/-- `Lexer._read_number`. -/
def readNumber (st : LexSt) (firstChar : Char) : Token × LexSt :=
  let st := { st with current_lexeme := String.mk [firstChar], current_state := "NUMBER" }
  let r := numberLoop (st.stream.rest.length + 1) false st
  let st := r.1
  let p := st.stream.getPosition
  let tokenType := if r.2 then "FLOAT" else "INTEGER"
  let st := logStep st ("Found number: " ++ st.current_lexeme) "TOKEN_GENERATED" none
  let token : Token := { type := tokenType, value := st.current_lexeme, line := p.1, column := p.2 }
  let st := logStep st ("Token generated: " ++ tokenStr token) "TOKEN_GENERATED" none
  (token, st)

/-- The `while` loop of `Lexer._read_string` together with the two
unterminated-string checks. -/
def stringLoop : Nat → Option Char → LexSt → Except (LexicalError × LexSt) LexSt
  | 0, _, st => .error ({ message := "out of fuel", line := 0, column := 0 }, st)
  | fuel + 1, ch, st =>
    match ch with
    | none =>
      let p := st.stream.getPosition
      .error ({ message := "Unterminated string", line := p.1, column := p.2 }, st)
    | some c =>
      if c = '"' then .ok st
      else
        let st := { st with current_lexeme := st.current_lexeme.push c }
        let st := logStep st ("Building string: '" ++ st.current_lexeme ++ "'")
          "TOKEN_GENERATED" none
        if c = '\n' then
          let p := st.stream.getPosition
          .error ({ message := "Unterminated string", line := p.1, column := p.2 }, st)
        else
          let g := st.stream.getChar
          stringLoop fuel g.1 { st with stream := g.2 }

/-- `Lexer._read_string`. -/
def readString (st : LexSt) : Except (LexicalError × LexSt) (Token × LexSt) :=
  let st := { st with current_lexeme := "", current_state := "STRING" }
  let g := st.stream.getChar
  match stringLoop (st.stream.rest.length + 1) g.1 { st with stream := g.2 } with
  | .error e => .error e
  | .ok st =>
    let p := st.stream.getPosition
    let st := logStep st ("Found string: " ++ st.current_lexeme) "TOKEN_GENERATED" none
    let token : Token := { type := "STRING", value := st.current_lexeme, line := p.1, column := p.2 }
    let st := logStep st ("Token generated: " ++ tokenStr token) "TOKEN_GENERATED" none
    .ok (token, st)

/-- `Lexer._read_operator`. -/
def readOperator (st : LexSt) (firstChar : Char) : Token × LexSt :=
  let p := st.stream.getPosition
  let st := { st with current_state := "OPERATOR" }
  let nextChar := st.stream.peekChar
  let twoCharOp := String.mk [firstChar] ++
    (match nextChar with
     | some c => String.mk [c]
     | none => "")
  if multiOps.contains twoCharOp then
    let g := st.stream.getChar
    let st := { st with stream := g.2, current_lexeme := twoCharOp }
    let st := logStep st ("Found operator: " ++ twoCharOp) "TOKEN_GENERATED" none
    let token : Token := { type := "OPERATOR", value := twoCharOp, line := p.1, column := p.2 }
    let st := logStep st ("Token generated: " ++ tokenStr token) "TOKEN_GENERATED" none
    (token, st)
  else
    let st := { st with current_lexeme := String.mk [firstChar] }
    let st := logStep st ("Found operator: " ++ String.mk [firstChar]) "TOKEN_GENERATED" none
    let token : Token :=
      { type := "OPERATOR", value := String.mk [firstChar], line := p.1, column := p.2 }
    let st := logStep st ("Token generated: " ++ tokenStr token) "TOKEN_GENERATED" none
    (token, st)

/-- `Lexer._read_delimiter`. -/
def readDelimiter (st : LexSt) (firstChar : Char) : Token × LexSt :=
  let p := st.stream.getPosition
  let st := { st with current_state := "DELIMITER", current_lexeme := String.mk [firstChar] }
  let st := logStep st ("Found delimiter: " ++ String.mk [firstChar]) "TOKEN_GENERATED" none
  let token : Token :=
    { type := "DELIMITER", value := String.mk [firstChar], line := p.1, column := p.2 }
  let st := logStep st ("Token generated: " ++ tokenStr token) "TOKEN_GENERATED" none
  (token, st)

/-- The `while char is not None` loop of `Lexer.get_next_token`; the fuel
only bounds the number of skipped whitespace characters. -/
def gntLoop : Nat → Option Char → LexSt → Except (LexicalError × LexSt) (Token × LexSt)
  | _, none, st =>
    .ok ({ type := "EOF", value := "", line := st.stream.line, column := st.stream.column }, st)
  | 0, some _, st => .error ({ message := "out of fuel", line := 0, column := 0 }, st)
  | fuel + 1, some c, st =>
    let st := logStep st ("Processing character: '" ++ String.mk [c] ++ "'")
      "TOKEN_GENERATED" (some c)
    if pySpace c then
      let st := { st with current_state := "WHITESPACE" }
      let st := logStep st "Skipping whitespace" "TOKEN_GENERATED" (some c)
      let g := st.stream.getChar
      gntLoop fuel g.1 { st with stream := g.2 }
    else if pyAlpha c then
      let st := { st with current_state := "BUILDING_IDENTIFIER" }
      .ok (readIdentifier st c)
    else if pyDigit c then
      let st := { st with current_state := "BUILDING_NUMBER" }
      .ok (readNumber st c)
    else if c = '"' then
      let st := { st with current_state := "BUILDING_STRING" }
      readString st
    else if operators.contains (String.mk [c]) then
      let st := { st with current_state := "OPERATOR" }
      .ok (readOperator st c)
    else if delimiters.contains (String.mk [c]) then
      let st := { st with current_state := "DELIMITER" }
      .ok (readDelimiter st c)
    else
      let p := st.stream.getPosition
      .error ({ message := "Unexpected character: '" ++ String.mk [c] ++ "'",
                line := p.1, column := p.2 }, st)

/-- `Lexer.get_next_token`. -/
def getNextToken (fuel : Nat) (st : LexSt) : Except (LexicalError × LexSt) (Token × LexSt) :=
  let st := { st with current_lexeme := "", current_state := "START" }
  let g := st.stream.getChar
  gntLoop fuel g.1 { st with stream := g.2 }

/-- The `while token.type != "EOF"` loop of `Lexer.tokenize`; the fuel
bounds the number of produced tokens (every non-EOF token consumes at least
one character). -/
def tokLoop : Nat → LexSt → Except (LexicalError × LexSt) LexSt
  | 0, st => .error ({ message := "out of fuel", line := 0, column := 0 }, st)
  | fuel + 1, st =>
    match getNextToken (st.stream.rest.length + 1) st with
    | .error e => .error e
    | .ok (t, st) =>
      if t.type = "EOF" then .ok st
      else tokLoop fuel { st with tokens := st.tokens ++ [t], last_token := some t }

/-- `Lexer.tokenize` (the source returns `self.tokens`; here the whole final
lexer state is returned, `tokens` included). -/
def tokenize (fuel : Nat) (st : LexSt) : Except (LexicalError × LexSt) LexSt :=
  tokLoop fuel { st with tokens := [] }

/-- `Lexer.__init__`. -/
def mkLexer (cs : List Char) : LexSt :=
  { stream := { rest := cs, pos := 0, line := 1, column := 1 }
    tokens := []
    steps := []
    heap := []
    symbol_table := []
    current_lexeme := ""
    current_state := "START"
    last_token := none }

/-- Build a lexer and run `tokenize` on a character list. -/
def runLexerChars (cs : List Char) : Except (LexicalError × LexSt) LexSt :=
  tokenize (cs.length + 1) (mkLexer cs)

/-- Build a lexer and run `tokenize` on a source string. -/
def runLexer (src : String) : Except (LexicalError × LexSt) LexSt :=
  runLexerChars src.data

/-- The final lexer state, whether tokenizing succeeded or raised. -/
def stateOf : Except (LexicalError × LexSt) LexSt → LexSt
  | .ok st => st
  | .error e => e.2

/-- The tokens accumulated by `Lexer.tokenize` (also on error: the tokens
list the lexer object holds when the exception is raised). -/
def tokensOf (r : Except (LexicalError × LexSt) LexSt) : List Token :=
  (stateOf r).tokens

/-- The raised `LexicalError`'s message, when tokenizing failed. -/
def errMsgOf : Except (LexicalError × LexSt) LexSt → Option String
  | .ok _ => none
  | .error e => some e.1.message

/-- The by-value view of the final symbol table. -/
def renderedTableOf (r : Except (LexicalError × LexSt) LexSt) :
    List (String × Option SymEntry) :=
  render (stateOf r).heap (stateOf r).symbol_table

/-! ## Parser embedding (`src/parser_engine.py`) -/

/-- `parser_engine.SyntaxError` (message, line, expected, found). -/
structure SynError where
  message : String
  line : Nat
  expected : Option String
  found : Option String
deriving Repr, DecidableEq

/-- The AST node classes.  Each Python node keeps named fields plus a
`children` list filled by `add_child`; both are kept here (so a
`binaryOp`'s `left`/`right` are duplicated into `children`, exactly as
`BinaryOpNode.__init__` does). -/
inductive Ast where
  | program (line : Option Nat) (children : List Ast)
  | declaration (varType : String) (varName : String) (line : Option Nat) (children : List Ast)
  | assignment (varName : String) (line : Option Nat) (children : List Ast)
  | binaryOp (operator : String) (left : Ast) (right : Ast) (line : Option Nat)
      (children : List Ast)
  | number (value : String) (line : Option Nat) (children : List Ast)
  | strNode (value : String) (line : Option Nat) (children : List Ast)
  | identifier (name : String) (line : Option Nat) (children : List Ast)
  | functionCall (name : String) (line : Option Nat) (arguments : List Ast)
      (children : List Ast)

/-- `ASTNode.add_child`. -/
def Ast.addChild : Ast → Ast → Ast
  | .program l cs, c => .program l (cs ++ [c])
  | .declaration t n l cs, c => .declaration t n l (cs ++ [c])
  | .assignment n l cs, c => .assignment n l (cs ++ [c])
  | .binaryOp o a b l cs, c => .binaryOp o a b l (cs ++ [c])
  | .number v l cs, c => .number v l (cs ++ [c])
  | .strNode v l cs, c => .strNode v l (cs ++ [c])
  | .identifier n l cs, c => .identifier n l (cs ++ [c])
  | .functionCall n l args cs, c => .functionCall n l args (cs ++ [c])

/-- `FunctionCallNode.add_argument` (appends to `arguments` and to
`children`; the source only ever calls it on a `FunctionCall` node, so the
other cases are unreachable). -/
def Ast.addArgument : Ast → Ast → Ast
  | .functionCall n l args cs, a => .functionCall n l (args ++ [a]) (cs ++ [a])
  | x, _ => x

/-- `AssignmentNode.__init__`: carries the target name and an implicit
`Identifier` child for it. -/
def mkAssignment (varName : String) (line : Option Nat) : Ast :=
  .assignment varName line [.identifier varName line []]

/-- The nodes' `__repr__`, used by `Parser.log_step` for `node_created`. -/
def astRepr : Ast → String
  | .program _ cs => "Program(" ++ toString cs.length ++ " statements)"
  | .declaration t n _ _ => "Declaration(" ++ t ++ " " ++ n ++ ")"
  | .assignment n _ _ => "Assignment(" ++ n ++ ")"
  | .binaryOp o _ _ _ _ => "BinaryOp(" ++ o ++ ")"
  | .number v _ _ => "Number(" ++ v ++ ")"
  | .strNode v _ _ => "String(" ++ v ++ ")"
  | .identifier n _ _ => "Identifier(" ++ n ++ ")"
  | .functionCall n _ args _ => "FunctionCall(" ++ n ++ ", " ++ toString args.length ++ " args)"

/-- One entry of `Parser.parse_steps`. -/
structure PStep where
  action : String
  message : String
  current_token : Option String
  line : Nat
  token_generated : Option String
  routine : Option String
  stack : List String
deriving Repr, DecidableEq

/-- The mutable fields of `parser_engine.Parser`. -/
structure PState where
  tokens : List Token
  current_token : Option Token
  position : Int
  parse_steps : List PStep
  routine_stack : List String
deriving Repr, DecidableEq

/-- `Parser.advance` (`position` starts at `-1` and is incremented before
every read, so it is never negative when used as an index). -/
def pAdvance (st : PState) : PState :=
  let pos := st.position + 1
  { st with
    position := pos
    current_token :=
      if pos < (st.tokens.length : Int) then st.tokens[pos.toNat]? else none }

/-- `Parser.__init__` (constructs the state and advances once). -/
def mkParser (tokens : List Token) : PState :=
  pAdvance
    { tokens := tokens, current_token := none, position := -1
      parse_steps := [], routine_stack := [] }

/-- `Parser.get_current_line`. -/
def getCurrentLine (st : PState) : Nat :=
  match st.current_token with
  | some t => t.line
  | none => 0

/-- `Parser.log_step`: appends a step and maintains `routine_stack` —
push on a `ROUTINE` action, pop on `COMPLETE`/`CREATE_NODE` only when a
routine name is supplied and equals the top of the stack. -/
def logStepP (st : PState) (action message : String) (nodeCreated : Option String)
    (routine : Option String) : PState :=
  let stack :=
    match routine with
    | none => st.routine_stack
    | some r =>
      if action = "ROUTINE" then st.routine_stack ++ [r]
      else if action = "COMPLETE" || action = "CREATE_NODE" then
        if st.routine_stack.getLast? = some r then st.routine_stack.dropLast
        else st.routine_stack
      else st.routine_stack
  let step : PStep :=
    { action := action
      message := message
      current_token := st.current_token.map tokenStr
      line := getCurrentLine st
      token_generated := nodeCreated
      routine := routine
      stack := stack }
  { st with routine_stack := stack, parse_steps := st.parse_steps ++ [step] }

/-- `Parser.expect`: on any mismatch (or exhausted input) it raises before
logging or advancing, so the error carries the unchanged state. -/
def expect (st : PState) (tokenType : String) (tokenValue : Option String) :
    Except (SynError × PState) (Token × PState) :=
  match st.current_token with
  | none =>
    .error ({ message := "Unexpected end of input", line := getCurrentLine st
              expected := none, found := none }, st)
  | some t =>
    if t.type ≠ tokenType then
      .error ({ message := "Expected " ++ tokenType ++ ", got " ++ t.type
                line := getCurrentLine st
                expected := some tokenType, found := some t.type }, st)
    else
      match tokenValue with
      | some v =>
        if t.value ≠ v then
          .error ({ message := "Expected '" ++ v ++ "', got '" ++ t.value ++ "'"
                    line := getCurrentLine st
                    expected := some v, found := some t.value }, st)
        else
          let st := logStepP st "CONSUME" ("Consumed: " ++ tokenStr t) none none
          .ok (t, pAdvance st)
      | none =>
        let st := logStepP st "CONSUME" ("Consumed: " ++ tokenStr t) none none
        .ok (t, pAdvance st)

/-- The declaration-type keyword set used at the two dispatch points. -/
def typeKeywords : List String :=
  ["int", "float", "char", "double"]

/-- Fuel-exhaustion marker for the parser (never reached at the call sites
below, which pass fuel exceeding the recursion depth). -/
def fuelErrS : SynError :=
  { message := "out of fuel", line := 0, expected := none, found := none }

/-- The tail of `Parser.parse_function_call` after the argument loop:
`expect(")")`, `expect(";")`, COMPLETE log. -/
def finishFcall (st : PState) (fc : Ast) : Except (SynError × PState) (Ast × PState) :=
  match expect st "DELIMITER" (some ")") with
  | .error e => .error e
  | .ok (_, st) =>
    match expect st "DELIMITER" (some ";") with
    | .error e => .error e
    | .ok (_, st) =>
      let st := logStepP st "COMPLETE" "Function call complete" none
        (some "parse_function_call")
      .ok (fc, st)

/-- The recursive grammar routines of the parser, tagged by which source
routine (or which loop inside one) is running:
`expr` = `parse_expression`, `add`/`addAcc` = `parse_additive_expression`
and its operator loop, `mul`/`mulAcc` = `parse_multiplicative_expression`
and its loop, `prim` = `parse_primary_expression`,
`fcall`/`fargs` = `parse_function_call` and its argument loop.
They are one fuel-indexed function because they are mutually recursive
(parenthesised primaries re-enter `parse_expression`). -/
inductive PMode where
  | expr
  | add
  | addAcc (acc : Ast)
  | mul
  | mulAcc (acc : Ast)
  | prim
  | fcall (name : String)
  | fargs (fc : Ast)

/-- `Parser.parse_expression` / `parse_additive_expression` /
`parse_multiplicative_expression` / `parse_primary_expression` /
`parse_function_call`, selected by the `PMode` tag. -/
def parseE : Nat → PMode → PState → Except (SynError × PState) (Ast × PState)
  | 0, _, st => .error (fuelErrS, st)
  | fuel + 1, mode, st =>
    match mode with
    | .expr =>
      let st := logStepP st "ROUTINE" "Starting expression parsing" none
        (some "parse_expression")
      match parseE fuel .add st with
      | .error e => .error e
      | .ok (r, st) =>
        let st := logStepP st "COMPLETE" "Expression parsing complete" none
          (some "parse_expression")
        .ok (r, st)
    | .add =>
      let st := logStepP st "ROUTINE" "Starting additive expression" none
        (some "parse_additive_expression")
      match parseE fuel .mul st with
      | .error e => .error e
      | .ok (r, st) => parseE fuel (.addAcc r) st
    | .addAcc acc =>
      match st.current_token with
      | some t =>
        if t.value = "+" || t.value = "-" then
          let op := t.value
          let st := logStepP st "OPERATOR" ("Found operator: " ++ op) none none
          match expect st "OPERATOR" none with
          | .error e => .error e
          | .ok (_, st) =>
            match parseE fuel .mul st with
            | .error e => .error e
            | .ok (right, st) =>
              let acc' := Ast.binaryOp op acc right (some (getCurrentLine st)) [acc, right]
              let st := logStepP st "CREATE_NODE" ("Created binary op: " ++ op)
                (some (astRepr acc')) none
              parseE fuel (.addAcc acc') st
        else
          let st := logStepP st "COMPLETE" "Additive expression complete" none
            (some "parse_additive_expression")
          .ok (acc, st)
      | none =>
        let st := logStepP st "COMPLETE" "Additive expression complete" none
          (some "parse_additive_expression")
        .ok (acc, st)
    | .mul =>
      let st := logStepP st "ROUTINE" "Starting multiplicative expression" none
        (some "parse_multiplicative_expression")
      match parseE fuel .prim st with
      | .error e => .error e
      | .ok (r, st) => parseE fuel (.mulAcc r) st
    | .mulAcc acc =>
      match st.current_token with
      | some t =>
        if t.value = "*" || t.value = "/" then
          let op := t.value
          let st := logStepP st "OPERATOR" ("Found operator: " ++ op) none none
          match expect st "OPERATOR" none with
          | .error e => .error e
          | .ok (_, st) =>
            match parseE fuel .prim st with
            | .error e => .error e
            | .ok (right, st) =>
              let acc' := Ast.binaryOp op acc right (some (getCurrentLine st)) [acc, right]
              let st := logStepP st "CREATE_NODE" ("Created binary op: " ++ op)
                (some (astRepr acc')) none
              parseE fuel (.mulAcc acc') st
        else
          let st := logStepP st "COMPLETE" "Multiplicative expression complete" none
            (some "parse_multiplicative_expression")
          .ok (acc, st)
      | none =>
        let st := logStepP st "COMPLETE" "Multiplicative expression complete" none
          (some "parse_multiplicative_expression")
        .ok (acc, st)
    | .prim =>
      let st := logStepP st "ROUTINE" "Starting primary expression" none
        (some "parse_primary_expression")
      match st.current_token with
      | some t =>
        if t.type = "NUMBER" || t.type = "INTEGER" || t.type = "FLOAT" then
          let st := logStepP st "CONSUME" ("Consumed number: " ++ t.value) none none
          let node := Ast.number t.value (some (getCurrentLine st)) []
          let st := logStepP st "CREATE_NODE" ("Created number: " ++ t.value)
            (some (astRepr node)) none
          .ok (node, pAdvance st)
        else if t.type = "STRING" then
          let st := logStepP st "CONSUME" ("Consumed string: " ++ t.value) none none
          let node := Ast.strNode t.value (some (getCurrentLine st)) []
          let st := logStepP st "CREATE_NODE" ("Created string: " ++ t.value)
            (some (astRepr node)) none
          .ok (node, pAdvance st)
        else if t.type = "IDENTIFIER" then
          let st := logStepP st "CONSUME" ("Consumed identifier: " ++ t.value) none none
          let node := Ast.identifier t.value (some (getCurrentLine st)) []
          let st := logStepP st "CREATE_NODE" ("Created identifier: " ++ t.value)
            (some (astRepr node)) none
          .ok (node, pAdvance st)
        else if t.value = "(" then
          match expect st "DELIMITER" (some "(") with
          | .error e => .error e
          | .ok (_, st) =>
            match parseE fuel .expr st with
            | .error e => .error e
            | .ok (expr, st) =>
              match expect st "DELIMITER" (some ")") with
              | .error e => .error e
              | .ok (_, st) => .ok (expr, st)
        else
          .error ({ message := "Expected number, string, identifier, or '('"
                    line := getCurrentLine st, expected := none, found := none }, st)
      | none =>
        .error ({ message := "Expected number, string, identifier, or '('"
                  line := getCurrentLine st, expected := none, found := none }, st)
    | .fcall name =>
      let st := logStepP st "ROUTINE" "Starting function call" none
        (some "parse_function_call")
      let fc := Ast.functionCall name (some (getCurrentLine st)) [] []
      let st := logStepP st "CREATE_NODE" ("Created function call: " ++ name)
        (some (astRepr fc)) none
      match expect st "DELIMITER" (some "(") with
      | .error e => .error e
      | .ok (_, st) =>
        match st.current_token with
        | some t =>
          if t.value ≠ ")" then
            match parseE fuel .expr st with
            | .error e => .error e
            | .ok (arg, st) => parseE fuel (.fargs (fc.addArgument arg)) st
          else finishFcall st fc
        | none => finishFcall st fc
    | .fargs fc =>
      match st.current_token with
      | some t =>
        if t.value = "," then
          match expect st "DELIMITER" (some ",") with
          | .error e => .error e
          | .ok (_, st) =>
            match parseE fuel .expr st with
            | .error e => .error e
            | .ok (arg, st) => parseE fuel (.fargs (fc.addArgument arg)) st
        else finishFcall st fc
      | none => finishFcall st fc

/-- `Parser.parse_declaration`. -/
def parseDeclaration (fuel : Nat) (st : PState) : Except (SynError × PState) (Ast × PState) :=
  let st := logStepP st "ROUTINE" "Starting declaration" none (some "parse_declaration")
  match expect st "KEYWORD" none with
  | .error e => .error e
  | .ok (tt, st) =>
    match expect st "IDENTIFIER" none with
    | .error e => .error e
    | .ok (tn, st) =>
      let decl := Ast.declaration tt.value tn.value (some (getCurrentLine st)) []
      let st := logStepP st "CREATE_NODE"
        ("Created declaration: " ++ tt.value ++ " " ++ tn.value) (some (astRepr decl)) none
      let withInit :
          Except (SynError × PState) (Ast × PState) :=
        match st.current_token with
        | some t =>
          if t.value = "=" then
            match expect st "OPERATOR" (some "=") with
            | .error e => .error e
            | .ok (_, st) =>
              match parseE fuel .expr st with
              | .error e => .error e
              | .ok (e, st) => .ok (decl.addChild e, st)
          else .ok (decl, st)
        | none => .ok (decl, st)
      match withInit with
      | .error e => .error e
      | .ok (decl, st) =>
        match expect st "DELIMITER" (some ";") with
        | .error e => .error e
        | .ok (_, st) =>
          let st := logStepP st "COMPLETE" "Declaration complete" none
            (some "parse_declaration")
          .ok (decl, st)

/-- `Parser.parse_assignment`. -/
def parseAssignment (fuel : Nat) (st : PState) : Except (SynError × PState) (Ast × PState) :=
  let st := logStepP st "ROUTINE" "Starting assignment" none (some "parse_assignment")
  match expect st "IDENTIFIER" none with
  | .error e => .error e
  | .ok (tn, st) =>
    match expect st "OPERATOR" (some "=") with
    | .error e => .error e
    | .ok (_, st) =>
      match parseE fuel .expr st with
      | .error e => .error e
      | .ok (expr, st) =>
        let assignment := (mkAssignment tn.value (some (getCurrentLine st))).addChild expr
        let st := logStepP st "CREATE_NODE" ("Created assignment: " ++ tn.value ++ " =")
          (some (astRepr assignment)) none
        match expect st "DELIMITER" (some ";") with
        | .error e => .error e
        | .ok (_, st) =>
          let st := logStepP st "COMPLETE" "Assignment complete" none
            (some "parse_assignment")
          .ok (assignment, st)

/-- `Parser.parse_declaration_or_assignment`. -/
def parseDeclOrAssign (fuel : Nat) (st : PState) : Except (SynError × PState) (Ast × PState) :=
  let st := logStepP st "ROUTINE" "Starting declaration/assignment" none
    (some "parse_declaration_or_assignment")
  match st.current_token with
  | none =>
    .error ({ message := "Unexpected end of input", line := getCurrentLine st
              expected := none, found := none }, st)
  | some t =>
    if t.type = "KEYWORD" && typeKeywords.contains t.value then
      parseDeclaration fuel st
    else
      parseAssignment fuel st

/-- `Parser.parse_identifier_statement`. -/
def parseIdentifierStatement (fuel : Nat) (st : PState) :
    Except (SynError × PState) (Ast × PState) :=
  let st := logStepP st "ROUTINE" "Starting identifier statement" none
    (some "parse_identifier_statement")
  match expect st "IDENTIFIER" none with
  | .error e => .error e
  | .ok (tn, st) =>
    match st.current_token with
    | some t =>
      if t.value = "(" then
        parseE fuel (.fcall tn.value) st
      else
        match expect st "OPERATOR" (some "=") with
        | .error e => .error e
        | .ok (_, st) =>
          match parseE fuel .expr st with
          | .error e => .error e
          | .ok (expr, st) =>
            let assignment := (mkAssignment tn.value (some (getCurrentLine st))).addChild expr
            let st := logStepP st "CREATE_NODE"
              ("Created assignment: " ++ tn.value ++ " =") (some (astRepr assignment)) none
            match expect st "DELIMITER" (some ";") with
            | .error e => .error e
            | .ok (_, st) =>
              let st := logStepP st "COMPLETE" "Identifier statement complete" none
                (some "parse_identifier_statement")
              .ok (assignment, st)
    | none =>
      match expect st "OPERATOR" (some "=") with
      | .error e => .error e
      | .ok (_, st) =>
        match parseE fuel .expr st with
        | .error e => .error e
        | .ok (expr, st) =>
          let assignment := (mkAssignment tn.value (some (getCurrentLine st))).addChild expr
          let st := logStepP st "CREATE_NODE"
            ("Created assignment: " ++ tn.value ++ " =") (some (astRepr assignment)) none
          match expect st "DELIMITER" (some ";") with
          | .error e => .error e
          | .ok (_, st) =>
            let st := logStepP st "COMPLETE" "Identifier statement complete" none
              (some "parse_identifier_statement")
            .ok (assignment, st)

/-- The `while self.current_token` loop of `Parser.parse`. -/
def stmtLoop : Nat → Ast → PState → Except (SynError × PState) (Ast × PState)
  | 0, _, st => .error (fuelErrS, st)
  | fuel + 1, prog, st =>
    match st.current_token with
    | none =>
      let st := logStepP st "COMPLETE" "Parsing completed successfully"
        (some (astRepr prog)) (some "parse_program")
      .ok (prog, st)
    | some t =>
      if t.type = "KEYWORD" && typeKeywords.contains t.value then
        let st := logStepP st "CHECK" "Found type keyword" none (some "parse_declaration")
        match parseDeclOrAssign fuel st with
        | .error e => .error e
        | .ok (d, st) => stmtLoop fuel (prog.addChild d) st
      else if t.type = "IDENTIFIER" then
        let st := logStepP st "CHECK" "Found identifier" none
          (some "parse_identifier_statement")
        match parseIdentifierStatement fuel st with
        | .error e => .error e
        | .ok (s, st) => stmtLoop fuel (prog.addChild s) st
      else
        .error ({ message := "Unexpected token " ++ t.type, line := getCurrentLine st
                  expected := none, found := none }, st)

/-- `Parser.parse`. -/
def parse (fuel : Nat) (st : PState) : Except (SynError × PState) (Ast × PState) :=
  let st := logStepP st "START" "Beginning parsing" none (some "parse_program")
  stmtLoop fuel (.program none []) st

/-- Construct a parser on a token list and run `parse` with ample fuel. -/
def runParser (tokens : List Token) : Except (SynError × PState) (Ast × PState) :=
  parse (4 * tokens.length + 16) (mkParser tokens)

/-- Lex then parse, as `app.py` does; the produced AST on success. -/
def pipelineAst (src : String) : Option Ast :=
  match runLexer src with
  | .ok st =>
    match runParser st.tokens with
    | .ok (a, _) => some a
    | .error _ => none
  | .error _ => none

/-- Lex then parse; the parser's routine-name stack after a successful
`parse`. -/
def pipelineStack (src : String) : Option (List String) :=
  match runLexer src with
  | .ok st =>
    match runParser st.tokens with
    | .ok (_, pst) => some pst.routine_stack
    | .error _ => none
  | .error _ => none

/-! ## Spec-side notions used by the claims -/

/-- The token produced by the first `get_next_token` call on a fresh lexer. -/
def firstTok (src : String) : Option Token :=
  match getNextToken (src.data.length + 1) (mkLexer src.data) with
  | .ok (t, _) => some t
  | .error _ => none

/-- The error raised by the second `get_next_token` call on a fresh lexer,
when the first call succeeds and the second raises. -/
def secondErr (src : String) : Option LexicalError :=
  match getNextToken (src.data.length + 1) (mkLexer src.data) with
  | .ok (_, st) =>
    match getNextToken (st.stream.rest.length + 1) st with
    | .error e => some e.1
    | .ok _ => none
  | .error _ => none

/-- Whether tokenizing succeeded. -/
def isOkB : Except (LexicalError × LexSt) LexSt → Bool
  | .ok _ => true
  | .error _ => false

/-- No produced token is a STRING token. -/
def noStringB (r : Except (LexicalError × LexSt) LexSt) : Bool :=
  (tokensOf r).all fun t => !(t.type == "STRING")

/-- The claim's round-trip input: the lexeme texts concatenated with single
spaces between them. -/
def joinLexemes : List String → List Char
  | [] => []
  | [s] => s.data
  | s :: rest => s.data ++ ' ' :: joinLexemes rest

/-- A character that may continue an identifier lexeme
(the loop condition of `Lexer._read_identifier`). -/
def identCont (c : Char) : Bool :=
  pyAlnum c || c = '_'

/-- The shape of identifier/keyword lexemes: alphabetic head, then
alphanumeric-or-underscore characters. -/
def identShape (s : String) : Prop :=
  ∃ c cs, s.data = c :: cs ∧ pyAlpha c = true ∧ ∀ x ∈ cs, identCont x = true

/-- The shape of INTEGER lexemes: nonempty, all digits. -/
def intShape (s : String) : Prop :=
  s.data ≠ [] ∧ ∀ x ∈ s.data, pyDigit x = true

/-- The shape of FLOAT lexemes: a nonempty block of digits, one dot, then
digits. -/
def floatShape (s : String) : Prop :=
  ∃ a b, s.data = a ++ '.' :: b ∧ a ≠ [] ∧ (∀ x ∈ a, pyDigit x = true) ∧
    ∀ x ∈ b, pyDigit x = true

/-- The OPERATOR lexemes the lexer can actually produce (`!=` is in the
two-character set but unreachable because `!` is not an operator starter). -/
def opOut : List String :=
  ["+", "-", "*", "/", "=", "<", ">", "==", "<=", ">="]

/-- The possible (kind, lexeme) shapes of every non-EOF, non-STRING token
the lexer produces. -/
def TokShape (k v : String) : Prop :=
  if k = "KEYWORD" then identShape v ∧ v ∈ keywords
  else if k = "IDENTIFIER" then identShape v ∧ v ∉ keywords
  else if k = "INTEGER" then intShape v
  else if k = "FLOAT" then floatShape v
  else if k = "OPERATOR" then v ∈ opOut
  else if k = "DELIMITER" then v ∈ delimiters
  else False

/-- Every non-EOF token the lexer stores is a STRING token or has one of
the `TokShape` shapes. -/
def TokOK (t : Token) : Prop :=
  t.type = "STRING" ∨ TokShape t.type t.value

/-- Every address stored in a table is allocated in the heap. -/
def TableOK (heap : List SymEntry) (tbl : List (String × Nat)) : Prop :=
  ∀ p ∈ tbl, p.2 < heap.length

/-- A trace step's snapshot is backed by the heap and still renders to the
by-value view recorded when the step was appended. -/
def StepOK (heap : List SymEntry) (s : LexStep) : Prop :=
  (∀ p ∈ s.snapshot, p.2 < heap.length) ∧ render heap s.snapshot = s.rendered

/-- The lexer-state invariant: table and snapshots are heap-backed, earlier
snapshots render unchanged, every allocated entry has type "variable", and
the table has no duplicate keys. -/
def InvSt (st : LexSt) : Prop :=
  TableOK st.heap st.symbol_table ∧
    (∀ s ∈ st.steps, StepOK st.heap s) ∧
    (∀ e ∈ st.heap, e.type = "variable") ∧
    (st.symbol_table.map Prod.fst).Nodup

/-- The invariant, on a lexing result (the raised state included). -/
def InvRes (r : Except (LexicalError × LexSt) LexSt) : Prop :=
  InvSt (stateOf r)

/-- The invariant, on a single-token result (the raised state included). -/
def InvResT (r : Except (LexicalError × LexSt) (Token × LexSt)) : Prop :=
  match r with
  | .ok p => InvSt p.2
  | .error e => InvSt e.2

/-- The (kind, lexeme) pairs of a token list. -/
def tokKV (ts : List Token) : List (String × String) :=
  ts.map fun t => (t.type, t.value)

/-- What may follow a lexeme in the round-trip input: nothing, or a space. -/
def SepOK (sep : List Char) : Prop :=
  sep = [] ∨ ∃ r, sep = ' ' :: r

/-! ## Heap/snapshot invariant lemmas -/

lemma invSt_congr {st st' : LexSt} (hh : st'.heap = st.heap)
    (ht : st'.symbol_table = st.symbol_table) (hs : st'.steps = st.steps)
    (h : InvSt st) : InvSt st' := by
  unfold InvSt at h ⊢
  rw [hh, ht, hs]
  exact h

lemma render_append {h d : List SymEntry} {tbl : List (String × Nat)}
    (hb : ∀ p ∈ tbl, p.2 < h.length) : render (h ++ d) tbl = render h tbl := by
  unfold render
  refine List.map_congr_left fun p hp => ?_
  rw [List.getElem?_append_left (hb p hp)]

lemma stepOK_append {h d : List SymEntry} {s : LexStep} (hs : StepOK h s) :
    StepOK (h ++ d) s := by
  obtain ⟨h1, h2⟩ := hs
  refine ⟨fun p hp => ?_, ?_⟩
  · calc p.2 < h.length := h1 p hp
      _ ≤ (h ++ d).length := by simp
  · rw [render_append h1, h2]

lemma logStep_invSt (st : LexSt) (m a : String) (c : Option Char) (h : InvSt st) :
    InvSt (logStep st m a c) := by
  obtain ⟨h1, h2, h3, h4⟩ := h
  refine ⟨h1, ?_, h3, h4⟩
  intro s hs
  simp only [logStep, List.mem_append, List.mem_singleton] at hs
  rcases hs with hs | hs
  · exact h2 s hs
  · subst hs
    exact ⟨h1, rfl⟩

lemma dictSet_mem : ∀ (tbl : List (String × Nat)) (k : String) (v : Nat) (p : String × Nat),
    p ∈ dictSet tbl k v → p ∈ tbl ∨ p = (k, v)
  | [], _, _, p, hp => by
    simp [dictSet] at hp
    exact Or.inr hp
  | (k', v') :: t, k, v, p, hp => by
    rw [dictSet] at hp
    split at hp
    · rcases List.mem_cons.mp hp with hp | hp
      · exact Or.inr hp
      · exact Or.inl (List.mem_cons_of_mem _ hp)
    · rcases List.mem_cons.mp hp with hp | hp
      · exact Or.inl (hp ▸ List.mem_cons_self _ _)
      · rcases dictSet_mem t k v p hp with h | h
        · exact Or.inl (List.mem_cons_of_mem _ h)
        · exact Or.inr h

lemma dictSet_keys_mem : ∀ (tbl : List (String × Nat)) (k : String) (v : Nat) (x : String),
    x ∈ (dictSet tbl k v).map Prod.fst ↔ x ∈ tbl.map Prod.fst ∨ x = k
  | [], k, v, x => by simp [dictSet]
  | (k', v') :: t, k, v, x => by
    rw [dictSet]
    split
    · next heq =>
      subst heq
      simp only [List.map_cons, List.mem_cons]
      tauto
    · simp only [List.map_cons, List.mem_cons, dictSet_keys_mem t k v x]
      tauto

lemma dictSet_keys_nodup : ∀ (tbl : List (String × Nat)) (k : String) (v : Nat),
    (tbl.map Prod.fst).Nodup → ((dictSet tbl k v).map Prod.fst).Nodup
  | [], k, v, _ => by simp [dictSet]
  | (k', v') :: t, k, v, hnd => by
    rw [List.map_cons, List.nodup_cons] at hnd
    rw [dictSet]
    split
    · next heq =>
      subst heq
      rw [List.map_cons, List.nodup_cons]
      exact hnd
    · next hne =>
      rw [List.map_cons, List.nodup_cons]
      refine ⟨?_, dictSet_keys_nodup t k v hnd.2⟩
      rw [dictSet_keys_mem]
      rintro (h | h)
      · exact hnd.1 h
      · exact hne h

lemma identLoop_invSt : ∀ (fuel : Nat) (st : LexSt), InvSt st → InvSt (identLoop fuel st)
  | 0, st, h => h
  | fuel + 1, st, h => by
    rw [identLoop]
    cases hp : st.stream.peekChar with
    | none => exact h
    | some c =>
      simp only
      split
      · exact identLoop_invSt fuel _
          (logStep_invSt _ _ _ _ (invSt_congr rfl rfl rfl h))
      · exact h

lemma numberLoop_invSt : ∀ (fuel : Nat) (hd : Bool) (st : LexSt), InvSt st →
    InvSt (numberLoop fuel hd st).1
  | 0, _, st, h => h
  | fuel + 1, hd, st, h => by
    rw [numberLoop]
    cases hp : st.stream.peekChar with
    | none => exact h
    | some c =>
      simp only
      split
      · apply numberLoop_invSt fuel
        apply logStep_invSt
        apply invSt_congr rfl rfl rfl
        split <;> exact invSt_congr rfl rfl rfl h
      · exact h

lemma stringLoop_invSt : ∀ (fuel : Nat) (ch : Option Char) (st : LexSt), InvSt st →
    InvRes (stringLoop fuel ch st)
  | 0, ch, st, h => by cases ch <;> exact h
  | fuel + 1, ch, st, h => by
    cases ch with
    | none => exact h
    | some c =>
      rw [stringLoop.eq_def]
      simp only
      split
      · exact h
      · split
        · exact logStep_invSt { st with current_lexeme := st.current_lexeme.push c } _ _ _ h
        · exact stringLoop_invSt fuel _ _
            (logStep_invSt { st with current_lexeme := st.current_lexeme.push c } _ _ _ h)

lemma readIdentifier_invSt (st : LexSt) (c : Char) (h : InvSt st) :
    InvSt (readIdentifier st c).2 := by
  unfold readIdentifier
  simp only
  have h1 : InvSt (identLoop (st.stream.rest.length + 1)
      { st with current_lexeme := String.mk [c], current_state := "IDENTIFIER" }) :=
    identLoop_invSt _ _ (invSt_congr rfl rfl rfl h)
  set st1 := identLoop (st.stream.rest.length + 1)
    { st with current_lexeme := String.mk [c], current_state := "IDENTIFIER" } with hst1
  apply logStep_invSt
  split
  · exact logStep_invSt _ _ _ _ (invSt_congr rfl rfl rfl h1)
  · apply logStep_invSt
    obtain ⟨i1, i2, i3, i4⟩ := h1
    refine ⟨?_, ?_, ?_, ?_⟩
    · intro p hp
      simp only [List.length_append, List.length_singleton]
      rcases dictSet_mem _ _ _ p hp with hm | hm
      · exact Nat.lt_succ_of_lt (i1 p hm)
      · rw [hm]
        exact Nat.lt_succ_self _
    · intro s hs
      exact stepOK_append (i2 s hs)
    · intro e he
      rcases List.mem_append.mp he with he | he
      · exact i3 e he
      · rw [List.mem_singleton.mp he]
    · exact dictSet_keys_nodup _ _ _ i4

lemma readNumber_invSt (st : LexSt) (c : Char) (h : InvSt st) :
    InvSt (readNumber st c).2 := by
  unfold readNumber
  simp only
  apply logStep_invSt
  apply logStep_invSt
  exact numberLoop_invSt _ _ _ (invSt_congr rfl rfl rfl h)

lemma readString_invSt (st : LexSt) (h : InvSt st) : InvResT (readString st) := by
  have h1 := stringLoop_invSt
    (({ st with current_lexeme := "", current_state := "STRING" } : LexSt).stream.rest.length + 1)
    ({ st with current_lexeme := "", current_state := "STRING" } : LexSt).stream.getChar.1
    { ({ st with current_lexeme := "", current_state := "STRING" } : LexSt) with
        stream := ({ st with current_lexeme := "", current_state := "STRING" } : LexSt).stream.getChar.2 }
    h
  unfold readString
  simp only
  split
  · next e heq =>
    rw [heq] at h1
    exact h1
  · next st2 heq =>
    rw [heq] at h1
    exact logStep_invSt _ _ _ _ (logStep_invSt st2 _ _ _ h1)

lemma readOperator_invSt (st : LexSt) (c : Char) (h : InvSt st) :
    InvSt (readOperator st c).2 := by
  unfold readOperator
  simp only
  split
  · exact logStep_invSt _ _ _ _ (logStep_invSt _ _ _ _ (invSt_congr rfl rfl rfl h))
  · exact logStep_invSt _ _ _ _ (logStep_invSt _ _ _ _ (invSt_congr rfl rfl rfl h))

lemma readDelimiter_invSt (st : LexSt) (c : Char) (h : InvSt st) :
    InvSt (readDelimiter st c).2 := by
  unfold readDelimiter
  exact logStep_invSt _ _ _ _ (logStep_invSt _ _ _ _ (invSt_congr rfl rfl rfl h))

lemma gntLoop_invSt : ∀ (fuel : Nat) (ch : Option Char) (st : LexSt), InvSt st →
    InvResT (gntLoop fuel ch st)
  | fuel, none, st, h => by
    cases fuel <;> exact h
  | 0, some _, st, h => h
  | fuel + 1, some c, st, h => by
    rw [gntLoop]
    simp only
    have hlog : InvSt (logStep st ("Processing character: '" ++ String.mk [c] ++ "'")
        "TOKEN_GENERATED" (some c)) := logStep_invSt st _ _ _ h
    set st1 := logStep st ("Processing character: '" ++ String.mk [c] ++ "'")
      "TOKEN_GENERATED" (some c) with hst1
    split
    · exact gntLoop_invSt fuel _ _
        (logStep_invSt { st1 with current_state := "WHITESPACE" } _ _ _ hlog)
    · split
      · exact readIdentifier_invSt { st1 with current_state := "BUILDING_IDENTIFIER" } _ hlog
      · split
        · exact readNumber_invSt { st1 with current_state := "BUILDING_NUMBER" } _ hlog
        · split
          · exact readString_invSt { st1 with current_state := "BUILDING_STRING" } hlog
          · split
            · exact readOperator_invSt { st1 with current_state := "OPERATOR" } _ hlog
            · split
              · exact readDelimiter_invSt { st1 with current_state := "DELIMITER" } _ hlog
              · exact hlog

lemma getNextToken_invSt (fuel : Nat) (st : LexSt) (h : InvSt st) :
    InvResT (getNextToken fuel st) := by
  unfold getNextToken
  exact gntLoop_invSt _ _ _ (invSt_congr rfl rfl rfl h)

lemma tokLoop_invSt : ∀ (fuel : Nat) (st : LexSt), InvSt st → InvRes (tokLoop fuel st)
  | 0, st, h => h
  | fuel + 1, st, h => by
    rw [tokLoop]
    have hg := getNextToken_invSt (st.stream.rest.length + 1) st h
    cases hr : getNextToken (st.stream.rest.length + 1) st with
    | error e =>
      rw [hr] at hg
      exact hg
    | ok p =>
      rw [hr] at hg
      simp only
      split
      · exact hg
      · exact tokLoop_invSt fuel _ (invSt_congr rfl rfl rfl hg)

lemma runLexer_invSt (src : String) : InvRes (runLexer src) := by
  apply tokLoop_invSt
  refine ⟨?_, ?_, ?_, ?_⟩ <;> simp [mkLexer, TableOK]

/-! ## Claim C1 -/

/-- C1 (counterexample): lexing `int x;` and then `x = 1;` on the next line
leaves the symbol-table entry for `x` with line 2, the line of the later
use — not line 1, the line of the first occurrence, as the claim states. -/
theorem C1_counterexample :
    renderedTableOf (runLexer "int x;\nx = 1;")
        = [("x", some { type := "variable", line := 2 })] ∧
      renderedTableOf (runLexer "int x;\nx = 1;")
        ≠ [("x", some { type := "variable", line := 1 })] := by
  exact ⟨rfl, by decide⟩

/-- C1 (amended): the symbol table has at most one entry per identifier
lexeme (its keys are always duplicate-free), but every occurrence of an
identifier as a non-keyword token overwrites the entry, so the recorded
line is the line of the last occurrence: after lexing `int x;` alone the
entry for `x` has line 1, and after `int x;` followed by `x = 1;` on line 2
it has line 2. -/
theorem C1_amended :
    (∀ src : String,
        (((stateOf (runLexer src)).symbol_table.map Prod.fst).Nodup)) ∧
      renderedTableOf (runLexer "int x;")
        = [("x", some { type := "variable", line := 1 })] ∧
      renderedTableOf (runLexer "int x;\nx = 1;")
        = [("x", some { type := "variable", line := 2 })] := by
  refine ⟨fun src => ?_, rfl, rfl⟩
  exact (runLexer_invSt src).2.2.2

/-! ## Claim C2 -/

/-- C2 (counterexample): lexing `int x; float y;` stores for both `x` and
`y` an entry `{'type': 'variable', 'line': 1}` — the declared type keyword
is not recorded (the stored type is the constant string "variable", not
`int`), and no size is stored at all (the entry dict has only the keys
`type` and `line`). -/
theorem C2_counterexample :
    renderedTableOf (runLexer "int x; float y;")
        = [("x", some { type := "variable", line := 1 }),
           ("y", some { type := "variable", line := 1 })] ∧
      (renderedTableOf (runLexer "int x; float y;")).map
          (fun p => (p.2.map SymEntry.type))
        ≠ [some "int", some "float"] := by
  exact ⟨rfl, by decide⟩

/-- C2 (amended): the lexer ignores the preceding type keyword entirely:
every symbol-table entry it ever allocates has type "variable" (and a line
number; the entry has no size field), so `int x; float y;` yields
`{x: variable line 1, y: variable line 1}`. -/
theorem C2_amended :
    (∀ src : String,
        ((stateOf (runLexer src)).heap.all fun e => e.type == "variable") = true) ∧
      renderedTableOf (runLexer "int x; float y;")
        = [("x", some { type := "variable", line := 1 }),
           ("y", some { type := "variable", line := 1 })] := by
  refine ⟨fun src => ?_, rfl⟩
  rw [List.all_eq_true]
  intro e he
  rw [beq_iff_eq]
  exact (runLexer_invSt src).2.2.1 e he

/-! ## Claim C3 -/

/-- C3: parsing `a = 1 - 2 - 3;` yields an Assignment whose value is the
left-associated tree `(1 - 2) - 3`: the outer BinaryOp's left child is the
BinaryOp combining 1 and 2 and its right child is the Number 3. -/
theorem C3_confirmed :
    pipelineAst "a = 1 - 2 - 3;"
      = some (.program none
          [.assignment "a" (some 1)
            [.identifier "a" (some 1) [],
             .binaryOp "-"
               (.binaryOp "-" (.number "1" (some 1) []) (.number "2" (some 1) [])
                 (some 1) [.number "1" (some 1) [], .number "2" (some 1) []])
               (.number "3" (some 1) []) (some 1)
               [.binaryOp "-" (.number "1" (some 1) []) (.number "2" (some 1) [])
                 (some 1) [.number "1" (some 1) [], .number "2" (some 1) []],
                .number "3" (some 1) []]]]) := by
  rfl

/-! ## Claim C4 -/

/-- C4 (counterexample): on input `1.2.3` the lexer does not raise a
"multiple decimal points" error: it emits a FLOAT token `1.2` for the
consumed prefix and then fails on the stray `.` with
"Unexpected character: '.'". -/
theorem C4_counterexample :
    errMsgOf (runLexer "1.2.3") = some "Unexpected character: '.'" ∧
      tokensOf (runLexer "1.2.3")
        = [{ type := "FLOAT", value := "1.2", line := 1, column := 4 }] := by
  exact ⟨rfl, rfl⟩

/-- C4 (amended): a second decimal point merely terminates the numeric
lexeme: `get_next_token` returns a FLOAT token for the prefix `1.2` already
consumed, and the next call raises a LexicalError "Unexpected character:
'.'" at the stray dot (line 1, column 5), so tokenizing halts there with
the partial FLOAT token already emitted. -/
theorem C4_amended :
    firstTok "1.2.3" = some { type := "FLOAT", value := "1.2", line := 1, column := 4 } ∧
      secondErr "1.2.3"
        = some { message := "Unexpected character: '.'", line := 1, column := 5 } ∧
      errMsgOf (runLexer "1.2.3") = some "Unexpected character: '.'" ∧
      tokensOf (runLexer "1.2.3")
        = [{ type := "FLOAT", value := "1.2", line := 1, column := 4 }] := by
  exact ⟨rfl, rfl, rfl, rfl⟩

/-! ## Claim C6 -/

/-- C6 (counterexample): `++` lexes as two one-character OPERATOR tokens
`+`, `+` (not one `++` token), and `&&` is a lexical error ("Unexpected
character: '&'") because `&` is not an operator starter. -/
theorem C6_counterexample :
    tokensOf (runLexer "++")
        = [{ type := "OPERATOR", value := "+", line := 1, column := 2 },
           { type := "OPERATOR", value := "+", line := 1, column := 3 }] ∧
      errMsgOf (runLexer "&&") = some "Unexpected character: '&'" := by
  exact ⟨rfl, rfl⟩

/-- C6 (amended): only `==`, `!=`, `<=`, `>=` are in the two-character
combination set.  `==`, `<=`, `>=` lex as single two-character OPERATOR
tokens; `++` and `--` lex as two one-character OPERATOR tokens; `&&`, `||`
and `!=` raise LexicalError at `&`, `|`, `!`, which are not operator
starters. -/
theorem C6_amended :
    tokensOf (runLexer "==")
        = [{ type := "OPERATOR", value := "==", line := 1, column := 2 }] ∧
      tokensOf (runLexer "<= >=")
        = [{ type := "OPERATOR", value := "<=", line := 1, column := 2 },
           { type := "OPERATOR", value := ">=", line := 1, column := 5 }] ∧
      tokensOf (runLexer "++")
        = [{ type := "OPERATOR", value := "+", line := 1, column := 2 },
           { type := "OPERATOR", value := "+", line := 1, column := 3 }] ∧
      tokensOf (runLexer "--")
        = [{ type := "OPERATOR", value := "-", line := 1, column := 2 },
           { type := "OPERATOR", value := "-", line := 1, column := 3 }] ∧
      errMsgOf (runLexer "&&") = some "Unexpected character: '&'" ∧
      errMsgOf (runLexer "||") = some "Unexpected character: '|'" ∧
      errMsgOf (runLexer "!=") = some "Unexpected character: '!'" := by
  exact ⟨rfl, rfl, rfl, rfl, rfl, rfl, rfl⟩

/-! ## Claim C7 -/

/-- C7 (counterexample): `_foo` does not lex as an identifier: the lexer
dispatches on `isalpha`, which rejects `_`, so it raises LexicalError
"Unexpected character: '_'" and emits no token. -/
theorem C7_counterexample :
    errMsgOf (runLexer "_foo") = some "Unexpected character: '_'" ∧
      tokensOf (runLexer "_foo") = [] := by
  exact ⟨rfl, rfl⟩

/-- C7 (amended): an identifier must start with an alphabetic character; a
leading underscore raises LexicalError "Unexpected character: '_'".
Underscores are accepted only as continuation characters: `f_oo` lexes as
the single IDENTIFIER token `f_oo`. -/
theorem C7_amended :
    errMsgOf (runLexer "_foo") = some "Unexpected character: '_'" ∧
      tokensOf (runLexer "f_oo")
        = [{ type := "IDENTIFIER", value := "f_oo", line := 1, column := 5 }] := by
  exact ⟨rfl, rfl⟩

/-! ## Claim C8 -/

/-- C8 (counterexample): after the successful parse of `a = 1;` the
routine-name stack is not empty. -/
theorem C8_counterexample :
    (pipelineStack "a = 1;").isSome = true ∧ pipelineStack "a = 1;" ≠ some [] := by
  exact ⟨rfl, by decide⟩

/-- C8 (amended): the stack pushes on every ROUTINE event, but pops only on
a COMPLETE/CREATE_NODE event that names the routine currently on top.
`parse_declaration_or_assignment` and `parse_primary_expression` never log
such an event, so their names stay on the stack and block every outer pop:
after parsing `a = 1;` the stack is [parse_identifier_statement,
parse_expression, parse_additive_expression,
parse_multiplicative_expression, parse_primary_expression], and after
`int x;` it is [parse_declaration_or_assignment]. -/
theorem C8_amended :
    pipelineStack "a = 1;"
        = some ["parse_identifier_statement", "parse_expression",
                "parse_additive_expression", "parse_multiplicative_expression",
                "parse_primary_expression"] ∧
      pipelineStack "int x;" = some ["parse_declaration_or_assignment"] := by
  exact ⟨rfl, rfl⟩

/-! ## Claim C10 -/

/-- C10: whenever `Parser.expect` raises a SyntaxError — kind mismatch,
value mismatch, or exhausted token stream — the parser state it leaves
behind is exactly the input state (the offending token is not consumed and
nothing is logged), and the error's line is `get_current_line` of that
unchanged state, i.e. the line of the token actually found. -/
theorem C10_confirmed (st : PState) (tokenType : String) (tokenValue : Option String)
    (e : SynError) (st' : PState)
    (h : expect st tokenType tokenValue = .error (e, st')) :
    st' = st ∧ e.line = getCurrentLine st := by
  unfold expect at h
  cases hc : st.current_token with
  | none =>
    rw [hc] at h
    simp only [Except.error.injEq, Prod.mk.injEq] at h
    exact ⟨h.2.symm, by rw [← h.1]⟩
  | some t =>
    rw [hc] at h
    by_cases ht : t.type = tokenType
    · simp only [ht, ne_eq, not_true_eq_false, if_neg, if_false] at h
      cases hv : tokenValue with
      | none =>
        rw [hv] at h
        simp at h
      | some v =>
        rw [hv] at h
        by_cases hval : t.value = v
        · simp only [hval, ne_eq, not_true_eq_false, if_neg, if_false] at h
          simp at h
        · simp only [ne_eq, hval, not_false_eq_true, if_pos, if_true,
            Except.error.injEq, Prod.mk.injEq] at h
          exact ⟨h.2.symm, by rw [← h.1]⟩
    · simp only [ne_eq, ht, not_false_eq_true, if_pos, if_true,
        Except.error.injEq, Prod.mk.injEq] at h
      exact ⟨h.2.symm, by rw [← h.1]⟩

/-- C10 (witness): `expect` on a parser whose current token is the INTEGER
`5`, asked for an IDENTIFIER, raises without consuming: the error state is
the original state and the reported line is line 1, the found token's
line. -/
theorem C10_witness :
    expect (mkParser [{ type := "INTEGER", value := "5", line := 1, column := 1 }])
        "IDENTIFIER" none
      = .error ({ message := "Expected IDENTIFIER, got INTEGER", line := 1,
                  expected := some "IDENTIFIER", found := some "INTEGER" },
          mkParser [{ type := "INTEGER", value := "5", line := 1, column := 1 }]) ∧
      mkParser [{ type := "INTEGER", value := "5", line := 1, column := 1 }]
          = mkParser [{ type := "INTEGER", value := "5", line := 1, column := 1 }] ∧
      ({ message := "Expected IDENTIFIER, got INTEGER", line := 1,
         expected := some "IDENTIFIER", found := some "INTEGER" } : SynError).line
        = getCurrentLine
            (mkParser [{ type := "INTEGER", value := "5", line := 1, column := 1 }]) := by
  exact ⟨rfl, C10_confirmed _ "IDENTIFIER" none _ _ rfl⟩

/-! ## Claim C9 -/

/-- C9: every trace step appended by the lexer snapshots the symbol table
by value: rendering any step's stored snapshot through the final heap gives
exactly the by-value view recorded when the step was appended, so later
insertions and overwrites never retroactively change an earlier trace
entry's snapshot. -/
theorem C9_confirmed :
    ∀ src : String,
      ((stateOf (runLexer src)).steps.all fun s =>
          decide (render (stateOf (runLexer src)).heap s.snapshot = s.rendered)) = true := by
  intro src
  rw [List.all_eq_true]
  intro s hs
  rw [decide_eq_true_iff]
  exact ((runLexer_invSt src).2.1 s hs).2

/-! ## Round-trip development (claim C5): basic facts -/

lemma string_eq_of_data {s t : String} (h : s.data = t.data) : s = t :=
  congrArg String.mk h

lemma getChar_cons {s : CharStream} {c : Char} {r : List Char} (h : s.rest = c :: r) :
    s.getChar.1 = some c ∧ s.getChar.2.rest = r := by
  simp only [CharStream.getChar, h]
  split <;> exact ⟨rfl, rfl⟩

lemma getChar_nil {s : CharStream} (h : s.rest = []) : s.getChar.1 = none := by
  simp only [CharStream.getChar, h]

lemma pyAlpha_iff {c : Char} :
    pyAlpha c = true ↔ (97 ≤ c.toNat ∧ c.toNat ≤ 122) ∨ (65 ≤ c.toNat ∧ c.toNat ≤ 90) := by
  simp [pyAlpha]

lemma pyDigit_iff {c : Char} : pyDigit c = true ↔ 48 ≤ c.toNat ∧ c.toNat ≤ 57 := by
  simp [pyDigit]

lemma pySpace_iff {c : Char} :
    pySpace c = true ↔ c.toNat = 32 ∨ c.toNat = 9 ∨ c.toNat = 10 ∨ c.toNat = 13 ∨
      c.toNat = 11 ∨ c.toNat = 12 := by
  simp [pySpace, or_assoc]

lemma alpha_not_space {c : Char} (h : pyAlpha c = true) : pySpace c = false := by
  rw [Bool.eq_false_iff]
  intro hs
  rw [pySpace_iff] at hs
  rw [pyAlpha_iff] at h
  omega

lemma digit_not_space {c : Char} (h : pyDigit c = true) : pySpace c = false := by
  rw [Bool.eq_false_iff]
  intro hs
  rw [pySpace_iff] at hs
  rw [pyDigit_iff] at h
  omega

lemma digit_not_alpha {c : Char} (h : pyDigit c = true) : pyAlpha c = false := by
  rw [Bool.eq_false_iff]
  intro ha
  rw [pyAlpha_iff] at ha
  rw [pyDigit_iff] at h
  omega

lemma digit_ne_dot {c : Char} (h : pyDigit c = true) : c ≠ '.' := by
  intro he
  subst he
  simp [pyDigit] at h

lemma digit_ne_quote {c : Char} (h : pyDigit c = true) : (c = '"') = False := by
  simp only [eq_iff_iff, iff_false]
  intro he
  subst he
  simp [pyDigit] at h

lemma alpha_ne_quote {c : Char} (h : pyAlpha c = true) : (c = '"') = False := by
  simp only [eq_iff_iff, iff_false]
  intro he
  subst he
  simp [pyAlpha] at h

/-! ## Round-trip development: tokens are never touched outside `tokLoop` -/

lemma logStep_tokens (st : LexSt) (m a : String) (c : Option Char) :
    (logStep st m a c).tokens = st.tokens := rfl

lemma identLoop_tokens : ∀ (fuel : Nat) (st : LexSt), (identLoop fuel st).tokens = st.tokens
  | 0, st => rfl
  | fuel + 1, st => by
    rw [identLoop]
    cases hp : st.stream.peekChar with
    | none => rfl
    | some c =>
      simp only
      split
      · exact identLoop_tokens fuel _
      · rfl

lemma numberLoop_tokens : ∀ (fuel : Nat) (hd : Bool) (st : LexSt),
    (numberLoop fuel hd st).1.tokens = st.tokens
  | 0, _, st => rfl
  | fuel + 1, hd, st => by
    rw [numberLoop]
    cases hp : st.stream.peekChar with
    | none => rfl
    | some c =>
      simp only
      split
      · rw [numberLoop_tokens fuel]
        show ((if c = '.' then { st with current_state := "FLOAT" } else st) : LexSt).tokens
          = st.tokens
        split <;> rfl
      · rfl

lemma stringLoop_tokens : ∀ (fuel : Nat) (ch : Option Char) (st st' : LexSt),
    stringLoop fuel ch st = .ok st' → st'.tokens = st.tokens
  | 0, ch, st, st', h => by
    cases ch <;> simp [stringLoop] at h
  | fuel + 1, ch, st, st', h => by
    cases ch with
    | none => simp [stringLoop] at h
    | some c =>
      rw [stringLoop.eq_def] at h
      simp only at h
      split at h
      · cases h
        rfl
      · split at h
        · cases h
        · have h2 := stringLoop_tokens fuel _ _ _ h
          exact h2

lemma readIdentifier_tokens (st : LexSt) (c : Char) :
    (readIdentifier st c).2.tokens = st.tokens := by
  unfold readIdentifier
  simp only
  split <;> simp [logStep_tokens, identLoop_tokens]

lemma readNumber_tokens (st : LexSt) (c : Char) :
    (readNumber st c).2.tokens = st.tokens := by
  unfold readNumber
  simp [logStep_tokens, numberLoop_tokens]

lemma readString_tokens (st : LexSt) (t : Token) (st' : LexSt)
    (h : readString st = .ok (t, st')) : st'.tokens = st.tokens := by
  unfold readString at h
  simp only at h
  split at h
  · cases h
  · next st2 heq =>
    cases h
    simpa [logStep_tokens] using stringLoop_tokens _ _ _ _ heq

lemma readOperator_tokens (st : LexSt) (c : Char) :
    (readOperator st c).2.tokens = st.tokens := by
  unfold readOperator
  simp only
  split <;> rfl

lemma readDelimiter_tokens (st : LexSt) (c : Char) :
    (readDelimiter st c).2.tokens = st.tokens := rfl

lemma gntLoop_tokens : ∀ (fuel : Nat) (ch : Option Char) (st : LexSt) (t : Token) (st' : LexSt),
    gntLoop fuel ch st = .ok (t, st') → st'.tokens = st.tokens
  | fuel, none, st, t, st', h => by
    cases fuel <;> (cases h; rfl)
  | 0, some c, st, t, st', h => by cases h
  | fuel + 1, some c, st, t, st', h => by
    rw [gntLoop] at h
    simp only at h
    split at h
    · have h2 := gntLoop_tokens fuel _ _ _ _ h
      exact h2
    · split at h
      · exact (congrArg (·.2.tokens) (Except.ok.inj h)).symm.trans (readIdentifier_tokens _ _)
      · split at h
        · exact (congrArg (·.2.tokens) (Except.ok.inj h)).symm.trans (readNumber_tokens _ _)
        · split at h
          · have h2 := readString_tokens _ _ _ h
            exact h2
          · split at h
            · exact (congrArg (·.2.tokens) (Except.ok.inj h)).symm.trans (readOperator_tokens _ _)
            · split at h
              · exact (congrArg (·.2.tokens) (Except.ok.inj h)).symm.trans
                  (readDelimiter_tokens _ _)
              · cases h

lemma getNextToken_tokens (fuel : Nat) (st : LexSt) (t : Token) (st' : LexSt)
    (h : getNextToken fuel st = .ok (t, st')) : st'.tokens = st.tokens := by
  unfold getNextToken at h
  simp only at h
  have h2 := gntLoop_tokens _ _ _ _ _ h
  exact h2

/-! ## Round-trip development: shapes of the produced tokens -/

lemma intShape_mk {c : Char} (hc : pyDigit c = true) : intShape (String.mk [c]) := by
  refine ⟨by simp, ?_⟩
  intro x hx
  rw [List.mem_singleton.mp hx]
  exact hc

lemma intShape_push {s : String} {c : Char} (h : intShape s) (hc : pyDigit c = true) :
    intShape (s.push c) := by
  obtain ⟨h1, h2⟩ := h
  refine ⟨by simp [String.data_push], ?_⟩
  intro x hx
  rw [String.data_push] at hx
  rcases List.mem_append.mp hx with hx | hx
  · exact h2 x hx
  · rw [List.mem_singleton.mp hx]
    exact hc

lemma floatShape_push {s : String} {c : Char} (h : floatShape s) (hc : pyDigit c = true) :
    floatShape (s.push c) := by
  obtain ⟨a, b, hab, ha, hda, hdb⟩ := h
  refine ⟨a, b ++ [c], ?_, ha, hda, ?_⟩
  · rw [String.data_push, hab]
    simp
  · intro x hx
    rcases List.mem_append.mp hx with hx | hx
    · exact hdb x hx
    · rw [List.mem_singleton.mp hx]
      exact hc

lemma intShape_dot {s : String} (h : intShape s) : floatShape (s.push '.') := by
  obtain ⟨h1, h2⟩ := h
  exact ⟨s.data, [], by simp [String.data_push], h1, h2, by simp⟩

lemma identLoop_lexeme : ∀ (fuel : Nat) (st : LexSt), ∃ w,
    (identLoop fuel st).current_lexeme.data = st.current_lexeme.data ++ w ∧
      ∀ x ∈ w, identCont x = true
  | 0, st => ⟨[], by simp [identLoop], by simp⟩
  | fuel + 1, st => by
    rw [identLoop]
    cases hp : st.stream.peekChar with
    | none => exact ⟨[], by simp, by simp⟩
    | some c =>
      simp only
      split
      · next hcond =>
        obtain ⟨w, hw, hall⟩ := identLoop_lexeme fuel
          (logStep { st with stream := st.stream.getChar.2, current_lexeme := st.current_lexeme.push c }
            ("Building identifier: '" ++ st.current_lexeme.push c ++ "'")
            "TOKEN_GENERATED" none)
        refine ⟨c :: w, ?_, ?_⟩
        · rw [hw]
          show (st.current_lexeme.push c).data ++ w = st.current_lexeme.data ++ c :: w
          rw [String.data_push]
          simp
        · intro x hx
          rcases List.mem_cons.mp hx with hx | hx
          · subst hx
            exact hcond
          · exact hall x hx
      · exact ⟨[], by simp, by simp⟩

lemma numberLoop_shape : ∀ (fuel : Nat) (hd : Bool) (st : LexSt),
    (hd = false → intShape st.current_lexeme) →
    (hd = true → floatShape st.current_lexeme) →
    ((numberLoop fuel hd st).2 = false → intShape (numberLoop fuel hd st).1.current_lexeme) ∧
      ((numberLoop fuel hd st).2 = true → floatShape (numberLoop fuel hd st).1.current_lexeme)
  | 0, hd, st, hi, hf => ⟨hi, hf⟩
  | fuel + 1, hd, st, hi, hf => by
    rw [numberLoop]
    cases hp : st.stream.peekChar with
    | none => exact ⟨hi, hf⟩
    | some c =>
      simp only
      split
      · next hcond =>
        by_cases hdot : c = '.'
        · subst hdot
          have hdF : pyDigit '.' = false := by decide
          rw [hdF, Bool.false_or, Bool.and_eq_true, decide_eq_true_iff] at hcond
          have hhd : hd = false := by
            cases hd
            · rfl
            · simp at hcond
          subst hhd
          simp only [if_pos rfl]
          refine numberLoop_shape fuel true
            (logStep { st with stream := st.stream.getChar.2, current_lexeme := st.current_lexeme.push '.', current_state := "FLOAT" }
              ("Building number: '" ++ st.current_lexeme.push '.' ++ "'")
              "TOKEN_GENERATED" none)
            (by intro hx; cases hx) ?_
          intro _
          show floatShape (st.current_lexeme.push '.')
          exact intShape_dot (hi rfl)
        · simp only [if_neg hdot]
          have hdig : pyDigit c = true := by
            rcases Bool.or_eq_true_iff.mp hcond with hx | hx
            · exact hx
            · rw [Bool.and_eq_true, decide_eq_true_iff] at hx
              exact absurd hx.1 hdot
          refine numberLoop_shape fuel hd
            (logStep { st with stream := st.stream.getChar.2, current_lexeme := st.current_lexeme.push c }
              ("Building number: '" ++ st.current_lexeme.push c ++ "'")
              "TOKEN_GENERATED" none)
            ?_ ?_
          · intro hhd
            show intShape (st.current_lexeme.push c)
            exact intShape_push (hi hhd) hdig
          · intro hhd
            show floatShape (st.current_lexeme.push c)
            exact floatShape_push (hf hhd) hdig
      · exact ⟨hi, hf⟩

lemma readIdentifier_shape (st : LexSt) (c : Char) (hc : pyAlpha c = true) :
    ((readIdentifier st c).1.type = "KEYWORD" ∨ (readIdentifier st c).1.type = "IDENTIFIER") ∧
      TokShape (readIdentifier st c).1.type (readIdentifier st c).1.value := by
  obtain ⟨w, hw, hall⟩ := identLoop_lexeme (st.stream.rest.length + 1)
    { st with current_lexeme := String.mk [c], current_state := "IDENTIFIER" }
  have hshape : identShape (identLoop (st.stream.rest.length + 1) { st with current_lexeme := String.mk [c], current_state := "IDENTIFIER" }).current_lexeme :=
    ⟨c, w, hw.trans rfl, hc, hall⟩
  unfold readIdentifier
  simp only
  split
  · next hkw =>
    exact ⟨Or.inl rfl, hshape, List.elem_iff.mp hkw⟩
  · next hkw =>
    refine ⟨Or.inr rfl, hshape, ?_⟩
    intro hmem
    exact hkw (List.elem_iff.mpr hmem)

lemma readNumber_shape (st : LexSt) (c : Char) (hc : pyDigit c = true) :
    ((readNumber st c).1.type = "INTEGER" ∨ (readNumber st c).1.type = "FLOAT") ∧
      TokShape (readNumber st c).1.type (readNumber st c).1.value := by
  have hns := numberLoop_shape (st.stream.rest.length + 1) false
    { st with current_lexeme := String.mk [c], current_state := "NUMBER" }
    (fun _ => intShape_mk hc)
    (by intro hx; cases hx)
  unfold readNumber
  simp only
  cases hflag : (numberLoop (st.stream.rest.length + 1) false { st with current_lexeme := String.mk [c], current_state := "NUMBER" }).2 with
  | false =>
    exact ⟨Or.inl rfl, hns.1 hflag⟩
  | true =>
    exact ⟨Or.inr rfl, hns.2 hflag⟩

lemma readString_type (st : LexSt) (t : Token) (st' : LexSt)
    (h : readString st = .ok (t, st')) : t.type = "STRING" := by
  unfold readString at h
  simp only at h
  split at h
  · cases h
  · cases h
    rfl

lemma singleton_opOut {c : Char} (h : String.mk [c] ∈ operators) :
    String.mk [c] ∈ opOut := by
  simp only [operators, List.mem_cons, List.not_mem_nil, or_false] at h
  rcases h with h | h | h | h | h | h | h | h | h | h | h <;>
    first
      | (rw [h]; decide)
      | (exact absurd (congrArg String.data h) (by simp))

lemma readOperator_shape (st : LexSt) (c : Char)
    (hc : operators.contains (String.mk [c]) = true) :
    (readOperator st c).1.type = "OPERATOR" ∧ (readOperator st c).1.value ∈ opOut := by
  unfold readOperator
  simp only
  split
  · next hm =>
    refine ⟨rfl, ?_⟩
    have hmem := List.elem_iff.mp hm
    simp only [multiOps, List.mem_cons, List.not_mem_nil, or_false] at hmem
    rcases hmem with h | h | h | h
    · rw [h]; exact (by decide : ("==" : String) ∈ opOut)
    · exfalso
      have hd := congrArg String.data h
      have hdd : [c] ++ (match st.stream.peekChar with
          | some c => String.mk [c]
          | none => "").data = ['!', '='] := hd
      cases hp : st.stream.peekChar with
      | none =>
        rw [hp] at hdd
        simp at hdd
      | some d =>
        rw [hp] at hdd
        simp only [List.singleton_append, List.cons.injEq] at hdd
        obtain ⟨hc1, _⟩ := hdd
        subst hc1
        exact absurd (List.elem_iff.mp hc) (by decide)
    · rw [h]; exact (by decide : ("<=" : String) ∈ opOut)
    · rw [h]; exact (by decide : (">=" : String) ∈ opOut)
  · refine ⟨rfl, ?_⟩
    exact singleton_opOut (List.elem_iff.mp hc)

lemma readDelimiter_shape (st : LexSt) (c : Char)
    (hc : delimiters.contains (String.mk [c]) = true) :
    (readDelimiter st c).1.type = "DELIMITER" ∧ (readDelimiter st c).1.value ∈ delimiters :=
  ⟨rfl, List.elem_iff.mp hc⟩

lemma gntLoop_shape : ∀ (fuel : Nat) (ch : Option Char) (st : LexSt) (t : Token) (st' : LexSt),
    gntLoop fuel ch st = .ok (t, st') →
    t.type = "EOF" ∨ t.type = "STRING" ∨ TokShape t.type t.value
  | fuel, none, st, t, st', h => by
    cases fuel <;> (cases h; exact Or.inl rfl)
  | 0, some c, st, t, st', h => by cases h
  | fuel + 1, some c, st, t, st', h => by
    rw [gntLoop] at h
    simp only at h
    split at h
    · exact gntLoop_shape fuel _ _ _ _ h
    · split at h
      · next halpha =>
        have h1 := Except.ok.inj h
        rw [Prod.ext_iff] at h1
        simp only at h1
        obtain ⟨ht, hst⟩ := h1
        subst ht
        exact Or.inr (Or.inr (readIdentifier_shape _ _ halpha).2)
      · split at h
        · next hdig =>
          have h1 := Except.ok.inj h
          rw [Prod.ext_iff] at h1
          simp only at h1
          obtain ⟨ht, hst⟩ := h1
          subst ht
          exact Or.inr (Or.inr (readNumber_shape _ _ hdig).2)
        · split at h
          · exact Or.inr (Or.inl (readString_type _ _ _ h))
          · split at h
            · next hop =>
              have h1 := Except.ok.inj h
              rw [Prod.ext_iff] at h1
              simp only at h1
              obtain ⟨ht, hst⟩ := h1
              subst ht
              obtain ⟨hty, hval⟩ := readOperator_shape _ c hop
              refine Or.inr (Or.inr ?_)
              rw [hty]
              exact hval
            · split at h
              · next hdel =>
                have h1 := Except.ok.inj h
                rw [Prod.ext_iff] at h1
                simp only at h1
                obtain ⟨ht, hst⟩ := h1
                subst ht
                obtain ⟨hty, hval⟩ := readDelimiter_shape _ c hdel
                refine Or.inr (Or.inr ?_)
                rw [hty]
                exact hval
              · cases h

lemma getNextToken_shape (fuel : Nat) (st : LexSt) (t : Token) (st' : LexSt)
    (h : getNextToken fuel st = .ok (t, st')) :
    t.type = "EOF" ∨ t.type = "STRING" ∨ TokShape t.type t.value := by
  unfold getNextToken at h
  simp only at h
  exact gntLoop_shape _ _ _ _ _ h

lemma tokLoop_shape : ∀ (fuel : Nat) (st st' : LexSt), tokLoop fuel st = .ok st' →
    (∀ t ∈ st.tokens, TokOK t) → ∀ t ∈ st'.tokens, TokOK t
  | 0, st, st', h, _ => by cases h
  | fuel + 1, st, st', h, hall => by
    rw [tokLoop] at h
    cases hg : getNextToken (st.stream.rest.length + 1) st with
    | error e =>
      rw [hg] at h
      cases h
    | ok p =>
      obtain ⟨tk, st2⟩ := p
      rw [hg] at h
      simp only at h
      split at h
      · cases h
        intro t ht
        rw [getNextToken_tokens _ _ _ _ hg] at ht
        exact hall t ht
      · next hne =>
        refine tokLoop_shape fuel _ _ h ?_
        intro t ht
        have ht' : t ∈ st2.tokens ++ [tk] := ht
        rcases List.mem_append.mp ht' with hh | hh
        · rw [getNextToken_tokens _ _ _ _ hg] at hh
          exact hall t hh
        · rw [List.mem_singleton] at hh
          subst hh
          rcases getNextToken_shape _ _ _ _ hg with he | hrest
          · exact absurd he hne
          · exact hrest

lemma runLexer_shape (src : String) (st' : LexSt) (h : runLexer src = .ok st') :
    ∀ t ∈ st'.tokens, TokOK t := by
  unfold runLexer runLexerChars tokenize at h
  refine tokLoop_shape _ _ _ h ?_
  intro t ht
  exact absurd ht (by simp [mkLexer])

/-! ## Round-trip development: re-lexing a single stored lexeme -/

lemma peekChar_of_rest {s : CharStream} {l : List Char} (h : s.rest = l) :
    s.peekChar = l.head? := by
  unfold CharStream.peekChar
  rw [h]

lemma identLoop_run : ∀ (w : List Char) (fuel : Nat) (st : LexSt) (sep : List Char),
    st.stream.rest = w ++ sep → (∀ x ∈ w, identCont x = true) → SepOK sep →
    w.length < fuel →
    (identLoop fuel st).current_lexeme.data = st.current_lexeme.data ++ w ∧
      (identLoop fuel st).stream.rest = sep
  | [], fuel, st, sep, h, _, hsep, hf => by
    cases fuel with
    | zero => omega
    | succ f =>
      rw [identLoop]
      rcases hsep with hsep | ⟨r, hsep⟩
      · subst hsep
        rw [peekChar_of_rest (by simpa using h)]
        exact ⟨by simp, by simpa using h⟩
      · subst hsep
        rw [peekChar_of_rest (by simpa using h)]
        simp only [List.head?_cons]
        rw [if_neg (by decide)]
        exact ⟨by simp, by simpa using h⟩
  | c :: w', fuel, st, sep, h, hw, hsep, hf => by
    cases fuel with
    | zero => omega
    | succ f =>
      have hr : st.stream.rest = c :: (w' ++ sep) := by simpa using h
      have hcc : identCont c = true := hw c (by simp)
      rw [identLoop, peekChar_of_rest hr]
      simp only [List.head?_cons]
      rw [if_pos (show (pyAlnum c || decide (c = '_')) = true from hcc)]
      have hgc := getChar_cons hr
      have ih := identLoop_run w' f
        (logStep { st with stream := st.stream.getChar.2, current_lexeme := st.current_lexeme.push c } ("Building identifier: '" ++ st.current_lexeme.push c ++ "'") "TOKEN_GENERATED" none)
        sep hgc.2 (fun x hx => hw x (List.mem_cons_of_mem _ hx)) hsep (by simp at hf ⊢; omega)
      refine ⟨?_, ih.2⟩
      rw [ih.1]
      show (st.current_lexeme.push c).data ++ w' = st.current_lexeme.data ++ c :: w'
      rw [String.data_push]
      simp

lemma numberLoop_digits : ∀ (w : List Char) (f : Nat) (hd : Bool) (st : LexSt)
    (rest' : List Char), st.stream.rest = w ++ rest' → (∀ x ∈ w, pyDigit x = true) →
    ∃ st2, numberLoop (w.length + f) hd st = numberLoop f hd st2 ∧
      st2.current_lexeme.data = st.current_lexeme.data ++ w ∧
      st2.stream.rest = rest' ∧ st2.tokens = st.tokens
  | [], f, hd, st, rest', h, _ =>
    ⟨st, by rw [List.length_nil, Nat.zero_add], by simp, by simpa using h, rfl⟩
  | c :: w', f, hd, st, rest', h, hw => by
    have hdig : pyDigit c = true := hw c (by simp)
    have hr : st.stream.rest = c :: (w' ++ rest') := by simpa using h
    have hfe : (c :: w').length + f = (w'.length + f) + 1 := by
      simp [List.length_cons]
      omega
    rw [hfe, numberLoop, peekChar_of_rest hr]
    simp only [List.head?_cons]
    rw [if_pos (by rw [hdig]; simp)]
    simp only [if_neg (digit_ne_dot hdig)]
    have hgc := getChar_cons hr
    obtain ⟨st2, he, hlex, hre, htk⟩ := numberLoop_digits w' f hd
      (logStep { st with stream := st.stream.getChar.2, current_lexeme := st.current_lexeme.push c } ("Building number: '" ++ st.current_lexeme.push c ++ "'") "TOKEN_GENERATED" none)
      rest' hgc.2 (fun x hx => hw x (List.mem_cons_of_mem _ hx))
    refine ⟨st2, he, ?_, hre, htk⟩
    rw [hlex]
    show (st.current_lexeme.push c).data ++ w' = st.current_lexeme.data ++ c :: w'
    rw [String.data_push]
    simp

lemma numberLoop_stop (f : Nat) (hd : Bool) (st : LexSt) (hsep : SepOK st.stream.rest) :
    numberLoop (f + 1) hd st = (st, hd) := by
  rcases hsep with hsep | ⟨r, hsep⟩
  · rw [numberLoop, peekChar_of_rest hsep]
    rfl
  · have h1 : (pyDigit ' ' || (decide (' ' = '.') && !hd)) = false := by
      cases hd <;> decide
    rw [numberLoop, peekChar_of_rest hsep]
    simp only [List.head?_cons]
    rw [if_neg (by rw [h1]; simp)]

lemma numberLoop_dot (f : Nat) (st : LexSt) (rest' : List Char)
    (h : st.stream.rest = '.' :: rest') :
    ∃ st2, numberLoop (f + 1) false st = numberLoop f true st2 ∧
      st2.current_lexeme.data = st.current_lexeme.data ++ ['.'] ∧
      st2.stream.rest = rest' ∧ st2.tokens = st.tokens := by
  rw [numberLoop, peekChar_of_rest h]
  refine ⟨_, rfl, ?_, ?_, ?_⟩
  · show (st.current_lexeme.push '.').data = st.current_lexeme.data ++ ['.']
    rw [String.data_push]
  · exact (getChar_cons (show ({ st with current_state := "FLOAT" } : LexSt).stream.rest
      = '.' :: rest' from h)).2
  · rfl

lemma readIdentifier_run (st : LexSt) (c : Char) (w sep : List Char)
    (hrest : st.stream.rest = w ++ sep) (hw : ∀ x ∈ w, identCont x = true)
    (hsep : SepOK sep) :
    (readIdentifier st c).1.value.data = c :: w ∧
      (readIdentifier st c).2.stream.rest = sep ∧
      ((readIdentifier st c).1.type = "KEYWORD" ∨
        (readIdentifier st c).1.type = "IDENTIFIER") ∧
      ((readIdentifier st c).1.type = "KEYWORD" ↔
        keywords.contains (readIdentifier st c).1.value = true) := by
  have hid := identLoop_run w (st.stream.rest.length + 1)
    { st with current_lexeme := String.mk [c], current_state := "IDENTIFIER" } sep
    hrest hw hsep (by rw [hrest]; simp; omega)
  unfold readIdentifier
  simp only
  split
  · next hkw =>
    refine ⟨?_, hid.2, Or.inl rfl, ⟨fun _ => hkw, fun _ => rfl⟩⟩
    show (identLoop (st.stream.rest.length + 1) { st with current_lexeme := String.mk [c], current_state := "IDENTIFIER" }).current_lexeme.data = c :: w
    rw [hid.1]
    rfl
  · next hkw =>
    refine ⟨?_, hid.2, Or.inr rfl,
      ⟨fun he => absurd he (show ¬(("IDENTIFIER" : String) = "KEYWORD") by decide),
       fun hc => absurd hc hkw⟩⟩
    show (identLoop (st.stream.rest.length + 1) { st with current_lexeme := String.mk [c], current_state := "IDENTIFIER" }).current_lexeme.data = c :: w
    rw [hid.1]
    rfl

lemma readNumber_run_int (st : LexSt) (c : Char) (w sep : List Char)
    (hrest : st.stream.rest = w ++ sep) (hdig : ∀ x ∈ w, pyDigit x = true)
    (hsep : SepOK sep) :
    (readNumber st c).1.type = "INTEGER" ∧
      (readNumber st c).1.value.data = c :: w ∧
      (readNumber st c).2.stream.rest = sep := by
  obtain ⟨st2, he, hlex, hre, _⟩ := numberLoop_digits w (sep.length + 1) false
    { st with current_lexeme := String.mk [c], current_state := "NUMBER" } sep hrest hdig
  have hstop := numberLoop_stop sep.length false st2 (by rw [hre]; exact hsep)
  have hfuel : st.stream.rest.length + 1 = w.length + (sep.length + 1) := by
    rw [hrest]
    simp [List.length_append]
    omega
  have hcomb : numberLoop (st.stream.rest.length + 1) false
      { st with current_lexeme := String.mk [c], current_state := "NUMBER" } = (st2, false) := by
    rw [hfuel, he, hstop]
  unfold readNumber
  simp only
  rw [hcomb]
  refine ⟨rfl, ?_, ?_⟩
  · show st2.current_lexeme.data = c :: w
    rw [hlex]
    rfl
  · exact hre

lemma readNumber_run_float (st : LexSt) (c : Char) (a b sep : List Char)
    (hrest : st.stream.rest = (a ++ '.' :: b) ++ sep)
    (ha : ∀ x ∈ a, pyDigit x = true) (hb : ∀ x ∈ b, pyDigit x = true)
    (hsep : SepOK sep) :
    (readNumber st c).1.type = "FLOAT" ∧
      (readNumber st c).1.value.data = c :: (a ++ '.' :: b) ∧
      (readNumber st c).2.stream.rest = sep := by
  have h0 : st.stream.rest = a ++ ('.' :: (b ++ sep)) := by
    rw [hrest]
    simp
  obtain ⟨st2, he1, hlex1, hre1, _⟩ := numberLoop_digits a ((b.length + (sep.length + 1)) + 1)
    false { st with current_lexeme := String.mk [c], current_state := "NUMBER" }
    ('.' :: (b ++ sep)) h0 ha
  obtain ⟨st3, he2, hlex2, hre2, _⟩ := numberLoop_dot (b.length + (sep.length + 1)) st2
    (b ++ sep) hre1
  obtain ⟨st4, he3, hlex3, hre3, _⟩ := numberLoop_digits b (sep.length + 1) true st3 sep hre2 hb
  have hstop := numberLoop_stop sep.length true st4 (by rw [hre3]; exact hsep)
  have hfuel : st.stream.rest.length + 1 = a.length + ((b.length + (sep.length + 1)) + 1) := by
    rw [hrest]
    simp [List.length_append]
    omega
  have hcomb : numberLoop (st.stream.rest.length + 1) false
      { st with current_lexeme := String.mk [c], current_state := "NUMBER" } = (st4, true) := by
    rw [hfuel, he1, he2, he3, hstop]
  unfold readNumber
  simp only
  rw [hcomb]
  refine ⟨rfl, ?_, ?_⟩
  · show st4.current_lexeme.data = c :: (a ++ '.' :: b)
    rw [hlex3, hlex2, hlex1]
    show (String.mk [c]).data ++ a ++ ['.'] ++ b = c :: (a ++ '.' :: b)
    simp
  · exact hre3

/-! ## Round-trip development: dispatch of `get_next_token` -/

lemma bfalse {b : Bool} (h : b = false) : ¬(b = true) := by
  simp [h]

lemma logStep_stream (st : LexSt) (m a : String) (c : Option Char) :
    (logStep st m a c).stream = st.stream := rfl

lemma getChar_head (s : CharStream) :
    s.getChar.1 = s.rest.head? ∧ s.getChar.2.rest = s.rest.tail := by
  cases hr : s.rest with
  | nil =>
    simp only [CharStream.getChar, hr]
    exact ⟨rfl, rfl⟩
  | cons c r =>
    simp only [CharStream.getChar, hr]
    split <;> exact ⟨rfl, rfl⟩

lemma readOperator_multi (st : LexSt) (c d : Char) (sep : List Char)
    (hrest : st.stream.rest = d :: sep)
    (hm : multiOps.contains (String.mk [c] ++ String.mk [d]) = true) :
    (readOperator st c).1.type = "OPERATOR" ∧
      (readOperator st c).1.value = String.mk [c] ++ String.mk [d] ∧
      (readOperator st c).2.stream.rest = sep := by
  have hp : st.stream.peekChar = some d := by
    rw [peekChar_of_rest hrest]
    rfl
  unfold readOperator
  simp only
  rw [hp]
  simp only
  rw [if_pos hm]
  exact ⟨rfl, rfl, (getChar_cons (show ({ st with current_state := "OPERATOR" } : LexSt).stream.rest = d :: sep from hrest)).2⟩

lemma readOperator_single (st : LexSt) (c : Char) (sep : List Char)
    (hrest : st.stream.rest = sep) (hsep : SepOK sep)
    (hm1 : multiOps.contains (String.mk [c]) = false)
    (hm2 : multiOps.contains (String.mk [c] ++ String.mk [' ']) = false) :
    (readOperator st c).1.type = "OPERATOR" ∧
      (readOperator st c).1.value = String.mk [c] ∧
      (readOperator st c).2.stream.rest = sep := by
  unfold readOperator
  simp only
  rcases hsep with hsep | ⟨r, hsep⟩
  · subst hsep
    have hp : st.stream.peekChar = none := by
      rw [peekChar_of_rest hrest]
      rfl
    rw [hp]
    simp only
    rw [if_neg (bfalse (show multiOps.contains (String.mk [c] ++ "") = false from hm1))]
    exact ⟨rfl, rfl, hrest⟩
  · subst hsep
    have hp : st.stream.peekChar = some ' ' := by
      rw [peekChar_of_rest hrest]
      rfl
    rw [hp]
    simp only
    rw [if_neg (bfalse hm2)]
    exact ⟨rfl, rfl, hrest⟩

lemma readDelimiter_run (st : LexSt) (c : Char) :
    (readDelimiter st c).1.type = "DELIMITER" ∧
      (readDelimiter st c).1.value = String.mk [c] ∧
      (readDelimiter st c).2.stream.rest = st.stream.rest :=
  ⟨rfl, rfl, rfl⟩

lemma gntLoop_alpha (f : Nat) (st : LexSt) (c : Char) (h2 : pyAlpha c = true) :
    gntLoop (f + 1) (some c) st
      = .ok (readIdentifier { logStep st ("Processing character: '" ++ String.mk [c] ++ "'") "TOKEN_GENERATED" (some c) with current_state := "BUILDING_IDENTIFIER" } c) := by
  rw [gntLoop]
  simp only
  rw [if_neg (bfalse (alpha_not_space h2)), if_pos h2]

lemma gntLoop_digit (f : Nat) (st : LexSt) (c : Char) (h3 : pyDigit c = true) :
    gntLoop (f + 1) (some c) st
      = .ok (readNumber { logStep st ("Processing character: '" ++ String.mk [c] ++ "'") "TOKEN_GENERATED" (some c) with current_state := "BUILDING_NUMBER" } c) := by
  rw [gntLoop]
  simp only
  rw [if_neg (bfalse (digit_not_space h3)), if_neg (bfalse (digit_not_alpha h3)), if_pos h3]

lemma gntLoop_op (f : Nat) (st : LexSt) (c : Char) (h1 : pySpace c = false)
    (h2 : pyAlpha c = false) (h3 : pyDigit c = false) (h4 : ¬(c = '"'))
    (h5 : operators.contains (String.mk [c]) = true) :
    gntLoop (f + 1) (some c) st
      = .ok (readOperator { logStep st ("Processing character: '" ++ String.mk [c] ++ "'") "TOKEN_GENERATED" (some c) with current_state := "OPERATOR" } c) := by
  rw [gntLoop]
  simp only
  rw [if_neg (bfalse h1), if_neg (bfalse h2), if_neg (bfalse h3), if_neg h4, if_pos h5]

lemma gntLoop_delim (f : Nat) (st : LexSt) (c : Char) (h1 : pySpace c = false)
    (h2 : pyAlpha c = false) (h3 : pyDigit c = false) (h4 : ¬(c = '"'))
    (h5 : operators.contains (String.mk [c]) = false)
    (h6 : delimiters.contains (String.mk [c]) = true) :
    gntLoop (f + 1) (some c) st
      = .ok (readDelimiter { logStep st ("Processing character: '" ++ String.mk [c] ++ "'") "TOKEN_GENERATED" (some c) with current_state := "DELIMITER" } c) := by
  rw [gntLoop]
  simp only
  rw [if_neg (bfalse h1), if_neg (bfalse h2), if_neg (bfalse h3), if_neg h4,
    if_neg (bfalse h5), if_pos h6]

lemma TokShape_cases {k ℓ : String} (h : TokShape k ℓ) :
    (k = "KEYWORD" ∧ identShape ℓ ∧ ℓ ∈ keywords) ∨
      (k = "IDENTIFIER" ∧ identShape ℓ ∧ ℓ ∉ keywords) ∨
      (k = "INTEGER" ∧ intShape ℓ) ∨
      (k = "FLOAT" ∧ floatShape ℓ) ∨
      (k = "OPERATOR" ∧ ℓ ∈ opOut) ∨
      (k = "DELIMITER" ∧ ℓ ∈ delimiters) := by
  unfold TokShape at h
  split at h
  · next heq => exact Or.inl ⟨heq, h⟩
  · split at h
    · next heq => exact Or.inr (Or.inl ⟨heq, h⟩)
    · split at h
      · next heq => exact Or.inr (Or.inr (Or.inl ⟨heq, h⟩))
      · split at h
        · next heq => exact Or.inr (Or.inr (Or.inr (Or.inl ⟨heq, h⟩)))
        · split at h
          · next heq => exact Or.inr (Or.inr (Or.inr (Or.inr (Or.inl ⟨heq, h⟩))))
          · split at h
            · next heq => exact Or.inr (Or.inr (Or.inr (Or.inr (Or.inr ⟨heq, h⟩))))
            · exact h.elim

lemma opOut_data_ne_nil {ℓ : String} (h : ℓ ∈ opOut) : ℓ.data ≠ [] := by
  simp only [opOut, List.mem_cons, List.not_mem_nil, or_false] at h
  rcases h with h | h | h | h | h | h | h | h | h | h <;> (subst h; simp)

lemma delimiters_data_ne_nil {ℓ : String} (h : ℓ ∈ delimiters) : ℓ.data ≠ [] := by
  simp only [delimiters, List.mem_cons, List.not_mem_nil, or_false] at h
  rcases h with h | h | h | h | h | h <;> (subst h; simp)

lemma TokShape_data_ne_nil {k ℓ : String} (h : TokShape k ℓ) : ℓ.data ≠ [] := by
  rcases TokShape_cases h with ⟨_, ⟨c, cs, hd, _, _⟩, _⟩ | ⟨_, ⟨c, cs, hd, _, _⟩, _⟩ |
    ⟨_, hne, _⟩ | ⟨_, a, b, hd, _, _, _⟩ | ⟨_, hm⟩ | ⟨_, hm⟩
  · simp [hd]
  · simp [hd]
  · exact hne
  · rw [hd]
    simp
  · exact opOut_data_ne_nil hm
  · exact delimiters_data_ne_nil hm

/-! ## Round-trip development: re-lexing one token, whitespace included -/

lemma gntLoop_relex : ∀ (spaces : List Char) (fuel : Nat) (k ℓ : String) (sep : List Char)
    (st : LexSt) (c : Char) (u : List Char),
    (∀ x ∈ spaces, x = ' ') → TokShape k ℓ → SepOK sep →
    spaces ++ ℓ.data = c :: u → st.stream.rest = u ++ sep → spaces.length < fuel →
    ∃ t st', gntLoop fuel (some c) st = .ok (t, st') ∧ t.type = k ∧ t.value = ℓ ∧
      st'.stream.rest = sep ∧ st'.tokens = st.tokens
  | [], fuel, k, ℓ, sep, st, c, u, _, hshape, hsep, hcu, hrest, hf => by
    simp only [List.nil_append] at hcu
    cases fuel with
    | zero => simp at hf
    | succ f =>
      rcases TokShape_cases hshape with ⟨hk, hident, hmem⟩ | ⟨hk, hident, hmem⟩ |
        ⟨hk, hint⟩ | ⟨hk, hfl⟩ | ⟨hk, hm⟩ | ⟨hk, hm⟩ <;> subst hk
      · obtain ⟨c0, cs, hd, halpha, hconts⟩ := hident
        rw [hd] at hcu
        injection hcu with h1 h2
        have h1s := h1.symm
        subst h1s
        have h2s := h2.symm
        subst h2s
        rw [gntLoop_alpha f st c halpha]
        have hrun := readIdentifier_run { logStep st ("Processing character: '" ++ String.mk [c] ++ "'") "TOKEN_GENERATED" (some c) with current_state := "BUILDING_IDENTIFIER" } c u sep hrest hconts hsep
        have hval := string_eq_of_data (s := (readIdentifier { logStep st ("Processing character: '" ++ String.mk [c] ++ "'") "TOKEN_GENERATED" (some c) with current_state := "BUILDING_IDENTIFIER" } c).1.value) (t := ℓ)
          (by rw [hrun.1, hd])
        refine ⟨_, _, congrArg Except.ok Prod.mk.eta.symm, ?_, hval, hrun.2.1, ?_⟩
        · exact hrun.2.2.2.mpr (by rw [hval]; exact List.elem_iff.mpr hmem)
        · exact readIdentifier_tokens _ c
      · obtain ⟨c0, cs, hd, halpha, hconts⟩ := hident
        rw [hd] at hcu
        injection hcu with h1 h2
        have h1s := h1.symm
        subst h1s
        have h2s := h2.symm
        subst h2s
        rw [gntLoop_alpha f st c halpha]
        have hrun := readIdentifier_run { logStep st ("Processing character: '" ++ String.mk [c] ++ "'") "TOKEN_GENERATED" (some c) with current_state := "BUILDING_IDENTIFIER" } c u sep hrest hconts hsep
        have hval := string_eq_of_data (s := (readIdentifier { logStep st ("Processing character: '" ++ String.mk [c] ++ "'") "TOKEN_GENERATED" (some c) with current_state := "BUILDING_IDENTIFIER" } c).1.value) (t := ℓ)
          (by rw [hrun.1, hd])
        refine ⟨_, _, congrArg Except.ok Prod.mk.eta.symm, ?_, hval, hrun.2.1, ?_⟩
        · rcases hrun.2.2.1 with hty | hty
          · have hcont := hrun.2.2.2.mp hty
            rw [hval] at hcont
            exact absurd (List.elem_iff.mp hcont) hmem
          · exact hty
        · exact readIdentifier_tokens _ c
      · obtain ⟨hne, hdig⟩ := hint
        have hcd : pyDigit c = true := hdig c (by rw [hcu]; exact List.mem_cons_self _ _)
        have hu : ∀ x ∈ u, pyDigit x = true := fun x hx =>
          hdig x (by rw [hcu]; exact List.mem_cons_of_mem _ hx)
        rw [gntLoop_digit f st c hcd]
        have hrun := readNumber_run_int { logStep st ("Processing character: '" ++ String.mk [c] ++ "'") "TOKEN_GENERATED" (some c) with current_state := "BUILDING_NUMBER" } c u sep hrest hu hsep
        have hval := string_eq_of_data (s := (readNumber { logStep st ("Processing character: '" ++ String.mk [c] ++ "'") "TOKEN_GENERATED" (some c) with current_state := "BUILDING_NUMBER" } c).1.value) (t := ℓ)
          (by rw [hrun.2.1, hcu])
        exact ⟨_, _, congrArg Except.ok Prod.mk.eta.symm, hrun.1, hval, hrun.2.2,
          readNumber_tokens _ c⟩
      · obtain ⟨A, B, hd, hAne, hdA, hdB⟩ := hfl
        cases A with
        | nil => exact absurd rfl hAne
        | cons a0 A2 =>
          rw [hd] at hcu
          simp only [List.cons_append, List.cons.injEq] at hcu
          obtain ⟨h1, h2⟩ := hcu
          have h1s := h1.symm
          subst h1s
          subst h2
          have hcd : pyDigit c = true := hdA c (List.mem_cons_self _ _)
          have hA2 : ∀ x ∈ A2, pyDigit x = true := fun x hx => hdA x (List.mem_cons_of_mem _ hx)
          rw [gntLoop_digit f st c hcd]
          have hrun := readNumber_run_float { logStep st ("Processing character: '" ++ String.mk [c] ++ "'") "TOKEN_GENERATED" (some c) with current_state := "BUILDING_NUMBER" } c A2 B sep hrest hA2 hdB hsep
          have hval := string_eq_of_data (s := (readNumber { logStep st ("Processing character: '" ++ String.mk [c] ++ "'") "TOKEN_GENERATED" (some c) with current_state := "BUILDING_NUMBER" } c).1.value) (t := ℓ)
            (by rw [hrun.2.1, hd]; simp)
          exact ⟨_, _, congrArg Except.ok Prod.mk.eta.symm, hrun.1, hval, hrun.2.2,
            readNumber_tokens _ c⟩
      · simp only [opOut, List.mem_cons, List.not_mem_nil, or_false] at hm
        rcases hm with hl | hl | hl | hl | hl | hl | hl | hl | hl | hl <;> subst hl
        · injection hcu with h1 h2
          have h1s := h1.symm
          subst h1s
          have h2s := h2.symm
          subst h2s
          rw [gntLoop_op f st '+' (by decide) (by decide) (by decide) (by decide) (by decide)]
          have hrun := readOperator_single { logStep st ("Processing character: '" ++ String.mk ['+'] ++ "'") "TOKEN_GENERATED" (some '+') with current_state := "OPERATOR" } '+' sep hrest hsep (by decide) (by decide)
          exact ⟨_, _, congrArg Except.ok Prod.mk.eta.symm, hrun.1, hrun.2.1, hrun.2.2,
            readOperator_tokens _ _⟩
        · injection hcu with h1 h2
          have h1s := h1.symm
          subst h1s
          have h2s := h2.symm
          subst h2s
          rw [gntLoop_op f st '-' (by decide) (by decide) (by decide) (by decide) (by decide)]
          have hrun := readOperator_single { logStep st ("Processing character: '" ++ String.mk ['-'] ++ "'") "TOKEN_GENERATED" (some '-') with current_state := "OPERATOR" } '-' sep hrest hsep (by decide) (by decide)
          exact ⟨_, _, congrArg Except.ok Prod.mk.eta.symm, hrun.1, hrun.2.1, hrun.2.2,
            readOperator_tokens _ _⟩
        · injection hcu with h1 h2
          have h1s := h1.symm
          subst h1s
          have h2s := h2.symm
          subst h2s
          rw [gntLoop_op f st '*' (by decide) (by decide) (by decide) (by decide) (by decide)]
          have hrun := readOperator_single { logStep st ("Processing character: '" ++ String.mk ['*'] ++ "'") "TOKEN_GENERATED" (some '*') with current_state := "OPERATOR" } '*' sep hrest hsep (by decide) (by decide)
          exact ⟨_, _, congrArg Except.ok Prod.mk.eta.symm, hrun.1, hrun.2.1, hrun.2.2,
            readOperator_tokens _ _⟩
        · injection hcu with h1 h2
          have h1s := h1.symm
          subst h1s
          have h2s := h2.symm
          subst h2s
          rw [gntLoop_op f st '/' (by decide) (by decide) (by decide) (by decide) (by decide)]
          have hrun := readOperator_single { logStep st ("Processing character: '" ++ String.mk ['/'] ++ "'") "TOKEN_GENERATED" (some '/') with current_state := "OPERATOR" } '/' sep hrest hsep (by decide) (by decide)
          exact ⟨_, _, congrArg Except.ok Prod.mk.eta.symm, hrun.1, hrun.2.1, hrun.2.2,
            readOperator_tokens _ _⟩
        · injection hcu with h1 h2
          have h1s := h1.symm
          subst h1s
          have h2s := h2.symm
          subst h2s
          rw [gntLoop_op f st '=' (by decide) (by decide) (by decide) (by decide) (by decide)]
          have hrun := readOperator_single { logStep st ("Processing character: '" ++ String.mk ['='] ++ "'") "TOKEN_GENERATED" (some '=') with current_state := "OPERATOR" } '=' sep hrest hsep (by decide) (by decide)
          exact ⟨_, _, congrArg Except.ok Prod.mk.eta.symm, hrun.1, hrun.2.1, hrun.2.2,
            readOperator_tokens _ _⟩
        · injection hcu with h1 h2
          have h1s := h1.symm
          subst h1s
          have h2s := h2.symm
          subst h2s
          rw [gntLoop_op f st '<' (by decide) (by decide) (by decide) (by decide) (by decide)]
          have hrun := readOperator_single { logStep st ("Processing character: '" ++ String.mk ['<'] ++ "'") "TOKEN_GENERATED" (some '<') with current_state := "OPERATOR" } '<' sep hrest hsep (by decide) (by decide)
          exact ⟨_, _, congrArg Except.ok Prod.mk.eta.symm, hrun.1, hrun.2.1, hrun.2.2,
            readOperator_tokens _ _⟩
        · injection hcu with h1 h2
          have h1s := h1.symm
          subst h1s
          have h2s := h2.symm
          subst h2s
          rw [gntLoop_op f st '>' (by decide) (by decide) (by decide) (by decide) (by decide)]
          have hrun := readOperator_single { logStep st ("Processing character: '" ++ String.mk ['>'] ++ "'") "TOKEN_GENERATED" (some '>') with current_state := "OPERATOR" } '>' sep hrest hsep (by decide) (by decide)
          exact ⟨_, _, congrArg Except.ok Prod.mk.eta.symm, hrun.1, hrun.2.1, hrun.2.2,
            readOperator_tokens _ _⟩
        · injection hcu with h1 h2
          have h1s := h1.symm
          subst h1s
          have h2s := h2.symm
          subst h2s
          rw [gntLoop_op f st '=' (by decide) (by decide) (by decide) (by decide) (by decide)]
          have hrun := readOperator_multi { logStep st ("Processing character: '" ++ String.mk ['='] ++ "'") "TOKEN_GENERATED" (some '=') with current_state := "OPERATOR" } '=' '=' sep hrest (by decide)
          exact ⟨_, _, congrArg Except.ok Prod.mk.eta.symm, hrun.1, hrun.2.1, hrun.2.2,
            readOperator_tokens _ _⟩
        · injection hcu with h1 h2
          have h1s := h1.symm
          subst h1s
          have h2s := h2.symm
          subst h2s
          rw [gntLoop_op f st '<' (by decide) (by decide) (by decide) (by decide) (by decide)]
          have hrun := readOperator_multi { logStep st ("Processing character: '" ++ String.mk ['<'] ++ "'") "TOKEN_GENERATED" (some '<') with current_state := "OPERATOR" } '<' '=' sep hrest (by decide)
          exact ⟨_, _, congrArg Except.ok Prod.mk.eta.symm, hrun.1, hrun.2.1, hrun.2.2,
            readOperator_tokens _ _⟩
        · injection hcu with h1 h2
          have h1s := h1.symm
          subst h1s
          have h2s := h2.symm
          subst h2s
          rw [gntLoop_op f st '>' (by decide) (by decide) (by decide) (by decide) (by decide)]
          have hrun := readOperator_multi { logStep st ("Processing character: '" ++ String.mk ['>'] ++ "'") "TOKEN_GENERATED" (some '>') with current_state := "OPERATOR" } '>' '=' sep hrest (by decide)
          exact ⟨_, _, congrArg Except.ok Prod.mk.eta.symm, hrun.1, hrun.2.1, hrun.2.2,
            readOperator_tokens _ _⟩
      · simp only [delimiters, List.mem_cons, List.not_mem_nil, or_false] at hm
        rcases hm with hl | hl | hl | hl | hl | hl <;> subst hl
        · injection hcu with h1 h2
          have h1s := h1.symm
          subst h1s
          have h2s := h2.symm
          subst h2s
          rw [gntLoop_delim f st ';' (by decide) (by decide) (by decide) (by decide) (by decide)
            (by decide)]
          exact ⟨_, _, congrArg Except.ok Prod.mk.eta.symm, rfl, rfl,
            (readDelimiter_run _ _).2.2.trans hrest, readDelimiter_tokens _ _⟩
        · injection hcu with h1 h2
          have h1s := h1.symm
          subst h1s
          have h2s := h2.symm
          subst h2s
          rw [gntLoop_delim f st ',' (by decide) (by decide) (by decide) (by decide) (by decide)
            (by decide)]
          exact ⟨_, _, congrArg Except.ok Prod.mk.eta.symm, rfl, rfl,
            (readDelimiter_run _ _).2.2.trans hrest, readDelimiter_tokens _ _⟩
        · injection hcu with h1 h2
          have h1s := h1.symm
          subst h1s
          have h2s := h2.symm
          subst h2s
          rw [gntLoop_delim f st '(' (by decide) (by decide) (by decide) (by decide) (by decide)
            (by decide)]
          exact ⟨_, _, congrArg Except.ok Prod.mk.eta.symm, rfl, rfl,
            (readDelimiter_run _ _).2.2.trans hrest, readDelimiter_tokens _ _⟩
        · injection hcu with h1 h2
          have h1s := h1.symm
          subst h1s
          have h2s := h2.symm
          subst h2s
          rw [gntLoop_delim f st ')' (by decide) (by decide) (by decide) (by decide) (by decide)
            (by decide)]
          exact ⟨_, _, congrArg Except.ok Prod.mk.eta.symm, rfl, rfl,
            (readDelimiter_run _ _).2.2.trans hrest, readDelimiter_tokens _ _⟩
        · injection hcu with h1 h2
          have h1s := h1.symm
          subst h1s
          have h2s := h2.symm
          subst h2s
          rw [gntLoop_delim f st '\x7b' (by decide) (by decide) (by decide) (by decide) (by decide)
            (by decide)]
          exact ⟨_, _, congrArg Except.ok Prod.mk.eta.symm, rfl, rfl,
            (readDelimiter_run _ _).2.2.trans hrest, readDelimiter_tokens _ _⟩
        · injection hcu with h1 h2
          have h1s := h1.symm
          subst h1s
          have h2s := h2.symm
          subst h2s
          rw [gntLoop_delim f st '\x7d' (by decide) (by decide) (by decide) (by decide) (by decide)
            (by decide)]
          exact ⟨_, _, congrArg Except.ok Prod.mk.eta.symm, rfl, rfl,
            (readDelimiter_run _ _).2.2.trans hrest, readDelimiter_tokens _ _⟩
  | s :: spaces2, fuel, k, ℓ, sep, st, c, u, hsp, hshape, hsep, hcu, hrest, hf => by
    have hs : s = ' ' := hsp s (List.mem_cons_self _ _)
    subst hs
    simp only [List.cons_append, List.cons.injEq] at hcu
    obtain ⟨h1, h2⟩ := hcu
    have h1s := h1.symm
    subst h1s
    have h2s := h2.symm
    subst h2s
    cases fuel with
    | zero => simp at hf
    | succ f =>
      rw [gntLoop]
      simp only
      rw [if_pos (by decide : pySpace ' ' = true)]
      simp only [logStep_stream]
      cases hsl : spaces2 ++ ℓ.data with
      | nil => exact absurd (List.append_eq_nil.mp hsl).2 (TokShape_data_ne_nil hshape)
      | cons c2 u2 =>
        have hr2 : st.stream.rest = c2 :: (u2 ++ sep) := by
          rw [hrest, hsl]
          rfl
        have hg1 : st.stream.getChar.1 = some c2 := by
          rw [(getChar_head st.stream).1, hr2]
          rfl
        rw [hg1]
        have hrest2 : ({ logStep { logStep st ("Processing character: '" ++ String.mk [' '] ++ "'") "TOKEN_GENERATED" (some ' ') with current_state := "WHITESPACE" } "Skipping whitespace" "TOKEN_GENERATED" (some ' ') with stream := st.stream.getChar.2 } : LexSt).stream.rest = u2 ++ sep := by
          show st.stream.getChar.2.rest = u2 ++ sep
          rw [(getChar_head st.stream).2, hr2]
          rfl
        obtain ⟨t, st', heq, ht1, ht2, ht3, ht4⟩ := gntLoop_relex spaces2 f k ℓ sep
          { logStep { logStep st ("Processing character: '" ++ String.mk [' '] ++ "'") "TOKEN_GENERATED" (some ' ') with current_state := "WHITESPACE" } "Skipping whitespace" "TOKEN_GENERATED" (some ' ') with stream := st.stream.getChar.2 }
          c2 u2 (fun x hx => hsp x (List.mem_cons_of_mem _ hx)) hshape hsep hsl hrest2
          (by simp only [List.length_cons] at hf; omega)
        exact ⟨t, st', heq, ht1, ht2, ht3, ht4.trans rfl⟩

lemma TokShape_ne_eof {k ℓ : String} (h : TokShape k ℓ) : k ≠ "EOF" := by
  rcases TokShape_cases h with ⟨hk, _⟩ | ⟨hk, _⟩ | ⟨hk, _⟩ | ⟨hk, _⟩ | ⟨hk, _⟩ | ⟨hk, _⟩ <;>
    subst hk <;> decide

lemma gntLoop_none (fuel : Nat) (st : LexSt) :
    gntLoop fuel none st
      = .ok ({ type := "EOF", value := "", line := st.stream.line, column := st.stream.column }, st) := by
  cases fuel <;> rfl

lemma gntLoop_allspace : ∀ (spaces : List Char) (fuel : Nat) (st : LexSt) (c : Char)
    (u : List Char), (∀ x ∈ spaces, x = ' ') → spaces = c :: u → st.stream.rest = u →
    u.length < fuel →
    ∃ t st', gntLoop fuel (some c) st = .ok (t, st') ∧ t.type = "EOF" ∧ st'.tokens = st.tokens
  | [], _, _, _, _, _, hcu, _, _ => by exact absurd hcu (by simp)
  | s :: spaces2, fuel, st, c, u, hsp, hcu, hrest, hf => by
    have hs : s = ' ' := hsp s (List.mem_cons_self _ _)
    injection hcu with h1 h2
    have hc : c = ' ' := h1 ▸ hs
    subst hc
    have h2s := h2.symm
    subst h2s
    cases fuel with
    | zero => exact absurd hf (Nat.not_lt_zero _)
    | succ f =>
      rw [gntLoop]
      simp only
      rw [if_pos (by decide : pySpace ' ' = true)]
      simp only [logStep_stream]
      cases u with
      | nil =>
        have hg1 : st.stream.getChar.1 = none := by
          rw [(getChar_head st.stream).1, hrest]
          rfl
        rw [hg1, gntLoop_none]
        exact ⟨_, _, rfl, rfl, rfl⟩
      | cons c2 u2 =>
        have hg1 : st.stream.getChar.1 = some c2 := by
          rw [(getChar_head st.stream).1, hrest]
          rfl
        have hrest2 : ({ logStep { logStep st ("Processing character: '" ++ String.mk [' '] ++ "'") "TOKEN_GENERATED" (some ' ') with current_state := "WHITESPACE" } "Skipping whitespace" "TOKEN_GENERATED" (some ' ') with stream := st.stream.getChar.2 } : LexSt).stream.rest = u2 := by
          show st.stream.getChar.2.rest = u2
          rw [(getChar_head st.stream).2, hrest]
          rfl
        rw [hg1]
        obtain ⟨t, st', heq, ht, htok⟩ := gntLoop_allspace (c2 :: u2) f
          { logStep { logStep st ("Processing character: '" ++ String.mk [' '] ++ "'") "TOKEN_GENERATED" (some ' ') with current_state := "WHITESPACE" } "Skipping whitespace" "TOKEN_GENERATED" (some ' ') with stream := st.stream.getChar.2 }
          c2 u2 (fun x hx => hsp x (List.mem_cons_of_mem _ hx)) rfl hrest2
          (by simp only [List.length_cons] at hf; omega)
        exact ⟨t, st', heq, ht, htok.trans rfl⟩

lemma getNextToken_relex (spaces : List Char) (fuel : Nat) (k ℓ : String) (sep : List Char)
    (st : LexSt) (hsp : ∀ x ∈ spaces, x = ' ') (hshape : TokShape k ℓ) (hsep : SepOK sep)
    (hrest : st.stream.rest = spaces ++ ℓ.data ++ sep) (hf : spaces.length < fuel) :
    ∃ t st', getNextToken fuel st = .ok (t, st') ∧ t.type = k ∧ t.value = ℓ ∧
      st'.stream.rest = sep ∧ st'.tokens = st.tokens := by
  have hkey : getNextToken fuel st = gntLoop fuel st.stream.getChar.1 { st with current_lexeme := "", current_state := "START", stream := st.stream.getChar.2 } := rfl
  cases hsl : spaces ++ ℓ.data with
  | nil => exact absurd (List.append_eq_nil.mp hsl).2 (TokShape_data_ne_nil hshape)
  | cons c u =>
    have hr2 : st.stream.rest = c :: (u ++ sep) := by
      rw [hrest, hsl]
      rfl
    have hg1 : st.stream.getChar.1 = some c := by
      rw [(getChar_head st.stream).1, hr2]
      rfl
    have hg2 : st.stream.getChar.2.rest = u ++ sep := by
      rw [(getChar_head st.stream).2, hr2]
      rfl
    rw [hkey, hg1]
    obtain ⟨t, st', heq, h1, h2, h3, h4⟩ := gntLoop_relex spaces fuel k ℓ sep
      { st with current_lexeme := "", current_state := "START", stream := st.stream.getChar.2 }
      c u hsp hshape hsep hsl hg2 hf
    exact ⟨t, st', heq, h1, h2, h3, h4.trans rfl⟩

lemma getNextToken_eof (spaces : List Char) (fuel : Nat) (st : LexSt)
    (hsp : ∀ x ∈ spaces, x = ' ') (hrest : st.stream.rest = spaces)
    (hf : spaces.length < fuel) :
    ∃ t st', getNextToken fuel st = .ok (t, st') ∧ t.type = "EOF" ∧ st'.tokens = st.tokens := by
  have hkey : getNextToken fuel st = gntLoop fuel st.stream.getChar.1 { st with current_lexeme := "", current_state := "START", stream := st.stream.getChar.2 } := rfl
  cases spaces with
  | nil =>
    have hg1 : st.stream.getChar.1 = none := by
      rw [(getChar_head st.stream).1, hrest]
      rfl
    rw [hkey, hg1, gntLoop_none]
    exact ⟨_, _, rfl, rfl, rfl⟩
  | cons c u =>
    have hg1 : st.stream.getChar.1 = some c := by
      rw [(getChar_head st.stream).1, hrest]
      rfl
    have hg2 : st.stream.getChar.2.rest = u := by
      rw [(getChar_head st.stream).2, hrest]
      rfl
    have hf2 : u.length < fuel := by
      simp only [List.length_cons] at hf
      omega
    rw [hkey, hg1]
    obtain ⟨t, st', heq, ht, htok⟩ := gntLoop_allspace (c :: u) fuel
      { st with current_lexeme := "", current_state := "START", stream := st.stream.getChar.2 }
      c u hsp rfl hg2 hf2
    exact ⟨t, st', heq, ht, htok.trans rfl⟩

lemma joinLexemes_length : ∀ (ls : List String), (∀ s ∈ ls, s.data ≠ []) →
    ls.length ≤ (joinLexemes ls).length
  | [], _ => le_refl _
  | [s], h => by
    have hp := List.length_pos.mpr (h s (List.mem_cons_self _ _))
    show [s].length ≤ s.data.length
    simp only [List.length_cons, List.length_nil]
    omega
  | s :: s2 :: rest, h => by
    have hp := List.length_pos.mpr (h s (List.mem_cons_self _ _))
    have ih := joinLexemes_length (s2 :: rest) (fun x hx => h x (List.mem_cons_of_mem _ hx))
    show (s :: s2 :: rest).length ≤ (s.data ++ ' ' :: joinLexemes (s2 :: rest)).length
    simp only [List.length_cons, List.length_append] at ih ⊢
    omega

lemma tokLoop_relex : ∀ (kvs : List (String × String)) (spaces : List Char) (fuel : Nat)
    (st : LexSt), (∀ x ∈ spaces, x = ' ') → (∀ p ∈ kvs, TokShape p.1 p.2) →
    st.stream.rest = spaces ++ joinLexemes (kvs.map Prod.snd) → kvs.length < fuel →
    ∃ st', tokLoop fuel st = .ok st' ∧ tokKV st'.tokens = tokKV st.tokens ++ kvs
  | [], spaces, fuel, st, hsp, _, hrest, hf => by
    cases fuel with
    | zero => exact absurd hf (Nat.not_lt_zero _)
    | succ f =>
      have hrest2 : st.stream.rest = spaces := by
        rw [hrest]
        simp [joinLexemes]
      obtain ⟨t, st', heq, ht, htok⟩ := getNextToken_eof spaces (st.stream.rest.length + 1)
        st hsp hrest2 (by rw [hrest2]; omega)
      refine ⟨st', ?_, ?_⟩
      · show tokLoop (f + 1) st = .ok st'
        rw [tokLoop, heq]
        show (if t.type = "EOF" then Except.ok st' else tokLoop f { st' with tokens := st'.tokens ++ [t], last_token := some t }) = .ok st'
        rw [if_pos ht]
      · rw [htok, List.append_nil]
  | (k, ℓ) :: kvs2, spaces, fuel, st, hsp, hshapes, hrest, hf => by
    cases fuel with
    | zero => exact absurd hf (Nat.not_lt_zero _)
    | succ f =>
      have hshape : TokShape k ℓ := hshapes (k, ℓ) (List.mem_cons_self _ _)
      obtain ⟨sep, hjoin, hsepOK, spaces2, hsp2, hsepJ⟩ :
          ∃ sep, joinLexemes (((k, ℓ) :: kvs2).map Prod.snd) = ℓ.data ++ sep ∧ SepOK sep ∧
            ∃ spaces2, (∀ x ∈ spaces2, x = ' ') ∧
              sep = spaces2 ++ joinLexemes (kvs2.map Prod.snd) := by
        cases kvs2 with
        | nil => exact ⟨[], by simp [joinLexemes], Or.inl rfl, [], by simp, by simp [joinLexemes]⟩
        | cons q kvs3 =>
          exact ⟨' ' :: joinLexemes ((q :: kvs3).map Prod.snd), rfl, Or.inr ⟨_, rfl⟩,
            [' '], by simp, rfl⟩
      have hrest2 : st.stream.rest = spaces ++ ℓ.data ++ sep := by
        rw [hrest, hjoin, List.append_assoc]
      have hflen : spaces.length < st.stream.rest.length + 1 := by
        rw [hrest2]
        simp only [List.length_append]
        omega
      obtain ⟨t, st1, heq, htype, hval, hrest1, htok1⟩ :=
        getNextToken_relex spaces (st.stream.rest.length + 1) k ℓ sep st hsp hshape hsepOK
          hrest2 hflen
      have hne : ¬ t.type = "EOF" := by
        rw [htype]
        exact TokShape_ne_eof hshape
      obtain ⟨st2, heq2, htok2⟩ := tokLoop_relex kvs2 spaces2 f
        { st1 with tokens := st1.tokens ++ [t], last_token := some t } hsp2
        (fun p hp => hshapes p (List.mem_cons_of_mem _ hp))
        (by show st1.stream.rest = spaces2 ++ joinLexemes (kvs2.map Prod.snd); rw [hrest1, hsepJ])
        (by simp only [List.length_cons] at hf; omega)
      refine ⟨st2, ?_, ?_⟩
      · show tokLoop (f + 1) st = .ok st2
        rw [tokLoop, heq]
        show (if t.type = "EOF" then Except.ok st1 else tokLoop f { st1 with tokens := st1.tokens ++ [t], last_token := some t }) = .ok st2
        rw [if_neg hne]
        exact heq2
      · rw [htok2]
        show tokKV (st1.tokens ++ [t]) ++ kvs2 = tokKV st.tokens ++ (k, ℓ) :: kvs2
        unfold tokKV
        rw [List.map_append, htok1, List.append_assoc]
        simp only [List.map_cons, List.map_nil]
        rw [htype, hval]
        rfl

/-- C5, counterexample: lexing `x = "abc";` succeeds with token kinds
[IDENTIFIER, OPERATOR, STRING, DELIMITER], but re-lexing the space-joined
lexeme texts (which read `x = abc ;`, the quotes being no part of the
STRING token's lexeme) yields kinds [IDENTIFIER, OPERATOR, IDENTIFIER,
DELIMITER], so the round trip does not preserve the kind sequence. -/
theorem C5_counterexample :
    isOkB (runLexer "x = \"abc\";") = true ∧
      (tokensOf (runLexer "x = \"abc\";")).map Token.type
        = ["IDENTIFIER", "OPERATOR", "STRING", "DELIMITER"] ∧
      (tokensOf (runLexerChars (joinLexemes
            ((tokensOf (runLexer "x = \"abc\";")).map Token.value)))).map Token.type
        = ["IDENTIFIER", "OPERATOR", "IDENTIFIER", "DELIMITER"] :=
  ⟨rfl, rfl, rfl⟩

/-- C5, amended: for any program that tokenizes successfully and produces
no STRING token, joining the produced lexeme texts with single spaces and
tokenizing that input succeeds and reproduces exactly the original
sequence of (kind, lexeme) pairs. -/
theorem C5_amended (src : String) (h1 : isOkB (runLexer src) = true)
    (h2 : noStringB (runLexer src) = true) :
    ∃ st₂, runLexerChars (joinLexemes ((tokensOf (runLexer src)).map Token.value)) = .ok st₂ ∧
      tokKV st₂.tokens = tokKV (tokensOf (runLexer src)) := by
  cases hr : runLexer src with
  | error e =>
    rw [hr] at h1
    exact absurd h1 (by simp [isOkB])
  | ok st₀ =>
    have h2b : ∀ t ∈ st₀.tokens, ¬ t.type = "STRING" := by
      rw [hr] at h2
      simp only [noStringB, tokensOf, stateOf, List.all_eq_true, Bool.not_eq_true',
        beq_eq_false_iff_ne, ne_eq] at h2
      exact h2
    have hshapes : ∀ t ∈ st₀.tokens, TokShape t.type t.value := by
      intro t ht
      rcases runLexer_shape src st₀ hr t ht with hstr | hsh
      · exact absurd hstr (h2b t ht)
      · exact hsh
    have hkv : ∀ p ∈ tokKV st₀.tokens, TokShape p.1 p.2 := by
      intro p hp
      unfold tokKV at hp
      obtain ⟨t, ht, hpt⟩ := List.mem_map.mp hp
      rw [← hpt]
      exact hshapes t ht
    have hmm : (tokKV st₀.tokens).map Prod.snd = st₀.tokens.map Token.value := by
      unfold tokKV
      rw [List.map_map]
      rfl
    have hne : ∀ s ∈ st₀.tokens.map Token.value, s.data ≠ [] := by
      intro s hs
      obtain ⟨t, ht, hts⟩ := List.mem_map.mp hs
      rw [← hts]
      exact TokShape_data_ne_nil (hshapes t ht)
    have hlen : (tokKV st₀.tokens).length
        < (joinLexemes (st₀.tokens.map Token.value)).length + 1 := by
      have hj := joinLexemes_length (st₀.tokens.map Token.value) hne
      unfold tokKV
      rw [List.length_map]
      rw [List.length_map] at hj
      omega
    obtain ⟨st₂, heq, hkvres⟩ := tokLoop_relex (tokKV st₀.tokens) []
      ((joinLexemes (st₀.tokens.map Token.value)).length + 1)
      { mkLexer (joinLexemes (st₀.tokens.map Token.value)) with tokens := [] }
      (by simp) hkv
      (by show joinLexemes (st₀.tokens.map Token.value) = [] ++ joinLexemes ((tokKV st₀.tokens).map Prod.snd); rw [hmm, List.nil_append])
      hlen
    refine ⟨st₂, ?_, ?_⟩
    · show tokLoop ((joinLexemes (st₀.tokens.map Token.value)).length + 1) { mkLexer (joinLexemes (st₀.tokens.map Token.value)) with tokens := [] } = .ok st₂
      exact heq
    · exact hkvres.trans rfl

/-- C5 witness: the amended round trip at the concrete program `x = 1;`,
whose four tokens come back exactly from re-lexing `x = 1 ;`. -/
theorem C5_witness :
    ∃ st₂, runLexerChars (joinLexemes ((tokensOf (runLexer "x = 1;")).map Token.value))
        = .ok st₂ ∧
      tokKV st₂.tokens = tokKV (tokensOf (runLexer "x = 1;")) :=
  C5_amended "x = 1;" (by rfl) (by rfl)

end GlassBox
